import Mathlib

set_option maxRecDepth 8192

/-!
Shallow embedding of the SwiftRemit settlement contract (src/src/lib.rs,
src/src/types.rs, src/src/events.rs).  Machine integers are modelled as
Nat / Int with explicit range checks mirroring Rust's checked arithmetic
on u64 / i128.  The keyed-storage module, the error enumeration and the
address-validation helper are not present under src/; they are modelled
from the spec (sections 6 and 7): a keyed store whose reads fail with
NotFound on a missing key, and an abstract well-formedness predicate on
principals.
-/

namespace SwiftRemit

/-- Status of a remittance, from src/src/types.rs. -/
inductive RemittanceStatus
  | Pending
  | Completed
  | Cancelled
deriving DecidableEq

/-- A remittance record, from src/src/types.rs.  Addresses are modelled
as natural numbers. -/
structure Remittance where
  id : Nat
  sender : Nat
  agent : Nat
  amount : Int
  fee : Int
  status : RemittanceStatus
  expiry : Option Nat
deriving DecidableEq

/-- Entry for the batch settlement operation, from src/src/types.rs. -/
structure BatchSettleEntry where
  remittance_id : Nat
deriving DecidableEq

/-- Result of a single settlement in a batch, from src/src/types.rs. -/
structure BatchSettleResult where
  remittance_id : Nat
  success : Bool
  payout_amount : Int
deriving DecidableEq

/-- Validated settlement data produced by batch phase 1, from
src/src/types.rs. -/
structure ValidatedSettlement where
  remittance_id : Nat
  agent : Nat
  payout_amount : Int
  fee : Int
  sender : Nat
deriving DecidableEq

/-- Modelled from the spec: the error taxonomy of section 7 (errors.rs is
not under src/). -/
inductive ContractError
  | AlreadyInitialized
  | InvalidFeeBps
  | AgentNotRegistered
  | InvalidAmount
  | Overflow
  | InvalidStatus
  | DuplicateSettlement
  | SettlementExpired
  | InvalidAddress
  | NoFeesToWithdraw
  | BatchEmpty
  | BatchValidationFailed
  | NotFound
deriving DecidableEq

/-- Bounds of Rust's i128. -/
def i128Min : Int := -(2 ^ 127)

def i128Max : Int := 2 ^ 127 - 1

/-- Bound of Rust's u64. -/
def u64Max : Nat := 2 ^ 64 - 1

/-- Rust i128::checked_add. -/
def checkedAddI128 (a b : Int) : Option Int :=
  if a + b < i128Min ∨ i128Max < a + b then none else some (a + b)

/-- Rust i128::checked_sub. -/
def checkedSubI128 (a b : Int) : Option Int :=
  if a - b < i128Min ∨ i128Max < a - b then none else some (a - b)

/-- Rust i128::checked_mul. -/
def checkedMulI128 (a b : Int) : Option Int :=
  if a * b < i128Min ∨ i128Max < a * b then none else some (a * b)

/-- Rust i128::checked_div (truncating division; fails on division by
zero and on i128Min / -1). -/
def checkedDivI128 (a b : Int) : Option Int :=
  if b = 0 then none
  else if a = i128Min ∧ b = -1 then none
  else some (Int.tdiv a b)

/-- Rust u64::checked_add. -/
def checkedAddU64 (a b : Nat) : Option Nat :=
  if u64Max < a + b then none else some (a + b)

/-- Modelled from the spec: keyed-store read (storage.rs is not under
src/); returns the value stored at a key. -/
def kvGet {α : Type} : List (Nat × α) → Nat → Option α
  | [], _ => none
  | (k', v) :: t, k => if k' = k then some v else kvGet t k

/-- Modelled from the spec: keyed-store write (storage.rs is not under
src/); overwrites the value at a key. -/
def kvSet {α : Type} : List (Nat × α) → Nat → α → List (Nat × α)
  | [], k, v => [(k, v)]
  | (k', v') :: t, k, v =>
    if k' = k then (k, v) :: t else (k', v') :: kvSet t k v

theorem kvGet_kvSet_self {α : Type} (l : List (Nat × α)) (k : Nat) (v : α) :
    kvGet (kvSet l k v) k = some v := by
  induction l with
  | nil => simp [kvGet, kvSet]
  | cons p t ih =>
    obtain ⟨k', v'⟩ := p
    by_cases h : k' = k
    · simp [kvGet, kvSet, h]
    · simp [kvGet, kvSet, h, ih]

theorem kvGet_kvSet_ne {α : Type} (l : List (Nat × α)) (k k' : Nat) (v : α)
    (h : k ≠ k') : kvGet (kvSet l k v) k' = kvGet l k' := by
  induction l with
  | nil => simp [kvGet, kvSet, h]
  | cons p t ih =>
    obtain ⟨k0, v0⟩ := p
    by_cases h0 : k0 = k
    · subst h0
      simp [kvGet, kvSet, h]
    · simp only [kvSet, if_neg h0, kvGet]
      by_cases h1 : k0 = k'
      · simp [h1]
      · simp [h1, ih]

/-- The host environment visible to the contract: ledger timestamp and
sequence number, the contract's own address, and — modelled from the
spec (validation.rs is not under src/) — the set of principals that the
address-validation helper rejects as malformed. -/
structure Env where
  timestamp : Nat
  sequence : Nat
  contractAddr : Nat
  invalidAddrs : List Nat
deriving DecidableEq

/-- Modelled from the spec: the explicit state aggregate holding every
key of the keyed store (storage.rs is not under src/): admin principal,
token identity, platform fee rate, remittance counter, fee pool, agent
registry, remittance records and settlement markers.  A field holding
none corresponds to a key never written. -/
structure ContractState where
  admin : Option Nat
  usdcToken : Option Nat
  feeBps : Option Nat
  counter : Option Nat
  accumulatedFees : Option Int
  agents : List (Nat × Bool)
  remittances : List (Nat × Remittance)
  markers : List Nat
deriving DecidableEq

/-- Modelled from the spec: agent-registry read; a principal never
written is not registered. -/
def is_agent_registered (s : ContractState) (agent : Nat) : Bool :=
  (kvGet s.agents agent).getD false

/-- Modelled from the spec: the settlement-marker check of storage.rs. -/
def has_settlement_hash (s : ContractState) (rid : Nat) : Bool :=
  decide (rid ∈ s.markers)

/-- Modelled from the spec: validate_address of validation.rs — rejects
a malformed principal with InvalidAddress. -/
def validate_address (env : Env) (a : Nat) : Except ContractError Unit :=
  if a ∈ env.invalidAddrs then .error .InvalidAddress else .ok ()

/-- Tag naming the code site that executed a transfer (ghost metadata on
the transfer log; the payout tags carry the remittance being settled). -/
inductive TransferTag
  | deposit
  | payout (rid : Nat)
  | refund (rid : Nat)
  | feeWithdraw
deriving DecidableEq

/-- One invocation of the external token-transfer interface. -/
structure Transfer where
  src : Nat
  dst : Nat
  amount : Int
  tag : TransferTag
deriving DecidableEq

/-- Events published by src/src/events.rs; each payload starts with the
schema version, the ledger sequence and the timestamp, as in the code. -/
inductive Event
  | remitCreated (ver seq ts rid sender agent token : Nat) (amount fee : Int)
  | remitCompleted (ver seq ts rid sender agent token : Nat) (amount : Int)
  | remitCancelled (ver seq ts rid sender agent token : Nat) (amount : Int)
  | batchStarted (ver seq ts batchSize : Nat)
  | batchCompleted (ver seq ts totalCount successCount : Nat) (totalPayout : Int)
  | batchFailed (ver seq ts failedAtIndex rid reason : Nat)
  | agentRegistered (ver seq ts agent admin : Nat)
  | agentRemoved (ver seq ts agent admin : Nat)
  | feeUpdated (ver seq ts admin oldFeeBps newFeeBps : Nat)
  | feesWithdrawn (ver seq ts admin recipient token : Nat) (amount : Int)
deriving DecidableEq

/-- Outcome of one contract entry point before the host's atomicity
envelope is applied: the returned value or error, the state as left by
the straight-line code, and the events and transfers emitted up to the
return point, in order. -/
structure Out (α : Type) where
  res : Except ContractError α
  state : ContractState
  events : List Event
  transfers : List Transfer

/-- The one-time bootstrap entry point of src/src/lib.rs (lines 24-47). -/
def bootstrap (env : Env) (s : ContractState) (admin usdc : Nat)
    (fee_bps : Nat) : Out Unit :=
  if s.admin.isSome then ⟨.error .AlreadyInitialized, s, [], []⟩
  else if 10000 < fee_bps then ⟨.error .InvalidFeeBps, s, [], []⟩
  else
    ⟨.ok (), { s with admin := some admin, usdcToken := some usdc, feeBps := some fee_bps, counter := some 0, accumulatedFees := some 0 }, [], []⟩

/-- register_agent of src/src/lib.rs (lines 49-59). -/
def register_agent (env : Env) (s : ContractState) (agent : Nat) : Out Unit :=
  match s.admin with
  | none => ⟨.error .NotFound, s, [], []⟩
  | some admin =>
    ⟨.ok (), { s with agents := kvSet s.agents agent true },
     [.agentRegistered 1 env.sequence env.timestamp agent admin], []⟩

/-- remove_agent of src/src/lib.rs (lines 61-71). -/
def remove_agent (env : Env) (s : ContractState) (agent : Nat) : Out Unit :=
  match s.admin with
  | none => ⟨.error .NotFound, s, [], []⟩
  | some admin =>
    ⟨.ok (), { s with agents := kvSet s.agents agent false },
     [.agentRemoved 1 env.sequence env.timestamp agent admin], []⟩

/-- update_fee of src/src/lib.rs (lines 73-88).  Note the source order:
the new rate is stored first, and the old rate for the event is read
back afterwards. -/
def update_fee (env : Env) (s : ContractState) (fee_bps : Nat) : Out Unit :=
  match s.admin with
  | none => ⟨.error .NotFound, s, [], []⟩
  | some admin =>
    if 10000 < fee_bps then ⟨.error .InvalidFeeBps, s, [], []⟩
    else
      let s' := { s with feeBps := some fee_bps }
      match s'.feeBps with
      | none => ⟨.error .NotFound, s', [], []⟩
      | some old_fee =>
        ⟨.ok (), s',
         [.feeUpdated 1 env.sequence env.timestamp admin old_fee fee_bps], []⟩

/-- create_remittance of src/src/lib.rs (lines 90-141). -/
def create_remittance (env : Env) (s : ContractState) (sender agent : Nat)
    (amount : Int) (expiry : Option Nat) : Out Nat :=
  if amount ≤ 0 then ⟨.error .InvalidAmount, s, [], []⟩
  else if !(is_agent_registered s agent) then
    ⟨.error .AgentNotRegistered, s, [], []⟩
  else
    match s.feeBps with
    | none => ⟨.error .NotFound, s, [], []⟩
    | some fee_bps =>
      match checkedMulI128 amount (fee_bps : Int) with
      | none => ⟨.error .Overflow, s, [], []⟩
      | some m =>
        match checkedDivI128 m 10000 with
        | none => ⟨.error .Overflow, s, [], []⟩
        | some fee =>
          match s.usdcToken with
          | none => ⟨.error .NotFound, s, [], []⟩
          | some usdc =>
            let tr : Transfer := ⟨sender, env.contractAddr, amount, .deposit⟩
            match s.counter with
            | none => ⟨.error .NotFound, s, [], [tr]⟩
            | some counter =>
              match checkedAddU64 counter 1 with
              | none => ⟨.error .Overflow, s, [], [tr]⟩
              | some rid =>
                let r : Remittance :=
                  ⟨rid, sender, agent, amount, fee, .Pending, expiry⟩
                ⟨.ok rid,
                 { s with remittances := kvSet s.remittances rid r, counter := some rid },
                 [.remitCreated 1 env.sequence env.timestamp rid sender agent
                   usdc amount fee],
                 [tr]⟩

/-- The expiry test of confirm_payout / batch phase 1: true when an
expiry is set and the current ledger time strictly exceeds it. -/
def isExpired (env : Env) (r : Remittance) : Bool :=
  match r.expiry with
  | some t => decide (t < env.timestamp)
  | none => false

/-- confirm_payout of src/src/lib.rs (lines 143-198). -/
def confirm_payout (env : Env) (s : ContractState) (rid : Nat) : Out Unit :=
  match kvGet s.remittances rid with
  | none => ⟨.error .NotFound, s, [], []⟩
  | some r =>
    if r.status ≠ .Pending then ⟨.error .InvalidStatus, s, [], []⟩
    else if has_settlement_hash s rid then
      ⟨.error .DuplicateSettlement, s, [], []⟩
    else if isExpired env r then ⟨.error .SettlementExpired, s, [], []⟩
    else if r.agent ∈ env.invalidAddrs then ⟨.error .InvalidAddress, s, [], []⟩
    else
      match checkedSubI128 r.amount r.fee with
      | none => ⟨.error .Overflow, s, [], []⟩
      | some payout =>
        match s.usdcToken with
        | none => ⟨.error .NotFound, s, [], []⟩
        | some usdc =>
          let tr : Transfer := ⟨env.contractAddr, r.agent, payout, .payout rid⟩
          match s.accumulatedFees with
          | none => ⟨.error .NotFound, s, [], [tr]⟩
          | some fees =>
            match checkedAddI128 fees r.fee with
            | none => ⟨.error .Overflow, s, [], [tr]⟩
            | some newFees =>
              ⟨.ok (),
               { s with accumulatedFees := some newFees, remittances := kvSet s.remittances rid { r with status := .Completed }, markers := rid :: s.markers },
               [.remitCompleted 1 env.sequence env.timestamp rid r.sender
                 r.agent usdc payout],
               [tr]⟩

/-- cancel_remittance of src/src/lib.rs (lines 200-225). -/
def cancel_remittance (env : Env) (s : ContractState) (rid : Nat) : Out Unit :=
  match kvGet s.remittances rid with
  | none => ⟨.error .NotFound, s, [], []⟩
  | some r =>
    if r.status ≠ .Pending then ⟨.error .InvalidStatus, s, [], []⟩
    else
      match s.usdcToken with
      | none => ⟨.error .NotFound, s, [], []⟩
      | some usdc =>
        let tr : Transfer := ⟨env.contractAddr, r.sender, r.amount, .refund rid⟩
        ⟨.ok (),
         { s with remittances := kvSet s.remittances rid { r with status := .Cancelled } },
         [.remitCancelled 1 env.sequence env.timestamp rid r.sender r.agent
           usdc r.amount],
         [tr]⟩

/-- withdraw_fees of src/src/lib.rs (lines 227-251); the recipient
argument is named toAddr here because the source name is a keyword. -/
def withdraw_fees (env : Env) (s : ContractState) (toAddr : Nat) : Out Unit :=
  match s.admin with
  | none => ⟨.error .NotFound, s, [], []⟩
  | some admin =>
    if toAddr ∈ env.invalidAddrs then ⟨.error .InvalidAddress, s, [], []⟩
    else
      match s.accumulatedFees with
      | none => ⟨.error .NotFound, s, [], []⟩
      | some fees =>
        if fees ≤ 0 then ⟨.error .NoFeesToWithdraw, s, [], []⟩
        else
          match s.usdcToken with
          | none => ⟨.error .NotFound, s, [], []⟩
          | some usdc =>
            let tr : Transfer := ⟨env.contractAddr, toAddr, fees, .feeWithdraw⟩
            ⟨.ok (), { s with accumulatedFees := some 0 },
             [.feesWithdrawn 1 env.sequence env.timestamp admin toAddr usdc fees],
             [tr]⟩

/-- The diagnostic event emitted on a batch validation failure
(src/src/events.rs lines 111-128). -/
def batchFailedEvent (env : Env) (i rid reason : Nat) : Event :=
  .batchFailed 1 env.sequence env.timestamp i rid reason

/-- Phase-1 validation of a single batch entry at index i
(src/src/lib.rs lines 311-366): on failure, the diagnostic event to
emit; on success, the ValidatedSettlement pushed for phase 2. -/
def validateEntry (env : Env) (s : ContractState) (i : Nat)
    (e : BatchSettleEntry) : Except Event ValidatedSettlement :=
  match kvGet s.remittances e.remittance_id with
  | none => .error (batchFailedEvent env i e.remittance_id 6)
  | some r =>
    if r.status ≠ .Pending then
      .error (batchFailedEvent env i e.remittance_id 7)
    else if has_settlement_hash s e.remittance_id then
      .error (batchFailedEvent env i e.remittance_id 12)
    else if isExpired env r then
      .error (batchFailedEvent env i e.remittance_id 11)
    else if r.agent ∈ env.invalidAddrs then
      .error (batchFailedEvent env i e.remittance_id 10)
    else
      match checkedSubI128 r.amount r.fee with
      | none => .error (batchFailedEvent env i e.remittance_id 8)
      | some payout =>
        .ok ⟨e.remittance_id, r.agent, payout, r.fee, r.sender⟩

/-- Phase 1 of batch_settle: validate every entry in order against the
unmodified pre-state; the first failure aborts with its diagnostic
event. -/
def batchValidate (env : Env) (s : ContractState) :
    List BatchSettleEntry → Nat → Except Event (List ValidatedSettlement)
  | [], _ => .ok []
  | e :: rest, i =>
    match validateEntry env s i e with
    | .error ev => .error ev
    | .ok v =>
      match batchValidate env s rest (i + 1) with
      | .error ev => .error ev
      | .ok vs => .ok (v :: vs)

/-- Outcome of phase 2: on success, the per-entry results plus the
running success count and total payout for the completion event. -/
structure ExecOut where
  res : Except ContractError (List BatchSettleResult × Nat × Int)
  state : ContractState
  events : List Event
  transfers : List Transfer

/-- Phase 2 of batch_settle (src/src/lib.rs lines 374-410): execute
each validated settlement in order — transfer the payout, add the fee to
the pool (checked), flip the stored record to Completed, set the
settlement marker, emit the completion event, and accumulate the
running totals (the payout total checked). -/
def batchExecute (env : Env) (usdc : Nat) :
    List ValidatedSettlement → ContractState → List Event → List Transfer →
    List BatchSettleResult → Nat → Int → ExecOut
  | [], s, evts, trs, results, succ, total => ⟨.ok (results, succ, total), s, evts, trs⟩
  | v :: rest, s, evts, trs, results, succ, total =>
    let tr : Transfer := ⟨env.contractAddr, v.agent, v.payout_amount, .payout v.remittance_id⟩
    let trs' := trs ++ [tr]
    match s.accumulatedFees with
    | none => ⟨.error .NotFound, s, evts, trs'⟩
    | some fees =>
      match checkedAddI128 fees v.fee with
      | none => ⟨.error .Overflow, s, evts, trs'⟩
      | some newFees =>
        let s1 := { s with accumulatedFees := some newFees }
        match kvGet s1.remittances v.remittance_id with
        | none => ⟨.error .NotFound, s1, evts, trs'⟩
        | some r =>
          let s2 := { s1 with remittances := kvSet s1.remittances v.remittance_id { r with status := .Completed }, markers := v.remittance_id :: s1.markers }
          let evts' := evts ++ [.remitCompleted 1 env.sequence env.timestamp v.remittance_id v.sender v.agent usdc v.payout_amount]
          match checkedAddI128 total v.payout_amount with
          | none => ⟨.error .Overflow, s2, evts', trs'⟩
          | some total' =>
            batchExecute env usdc rest s2 evts' trs' (results ++ [⟨v.remittance_id, true, v.payout_amount⟩]) (succ + 1) total'

/-- batch_settle of src/src/lib.rs (lines 292-418): reject an empty
batch, emit the started event, fetch the token, validate every entry
(phase 1), then execute them all (phase 2) and emit the completion
event. -/
def batch_settle (env : Env) (s : ContractState)
    (settlements : List BatchSettleEntry) : Out (List BatchSettleResult) :=
  if settlements.isEmpty then ⟨.error .BatchEmpty, s, [], []⟩
  else
    let started : Event := .batchStarted 1 env.sequence env.timestamp settlements.length
    match s.usdcToken with
    | none => ⟨.error .NotFound, s, [started], []⟩
    | some usdc =>
      match batchValidate env s settlements 0 with
      | .error ev => ⟨.error .BatchValidationFailed, s, [started, ev], []⟩
      | .ok vs =>
        let eo := batchExecute env usdc vs s [started] [] [] 0 0
        match eo.res with
        | .error e => ⟨.error e, eo.state, eo.events, eo.transfers⟩
        | .ok (results, succ, total) =>
          ⟨.ok results, eo.state, eo.events ++ [.batchCompleted 1 env.sequence env.timestamp settlements.length succ total], eo.transfers⟩

/-- The contract's entry points, as one operation type. -/
inductive Op
  | bootstrap (admin usdc fee_bps : Nat)
  | register_agent (agent : Nat)
  | remove_agent (agent : Nat)
  | update_fee (fee_bps : Nat)
  | create_remittance (sender agent : Nat) (amount : Int) (expiry : Option Nat)
  | confirm_payout (rid : Nat)
  | cancel_remittance (rid : Nat)
  | withdraw_fees (toAddr : Nat)
  | batch_settle (settlements : List BatchSettleEntry)
deriving DecidableEq

/-- Uniform return value across the entry points. -/
inductive RetVal
  | unit
  | newId (rid : Nat)
  | results (rs : List BatchSettleResult)
deriving DecidableEq

/-- Map an outcome's return value to the uniform type. -/
def Out.retMap {α : Type} (f : α → RetVal) (o : Out α) : Out RetVal :=
  ⟨o.res.map f, o.state, o.events, o.transfers⟩

/-- One invocation of an entry point, before the host envelope. -/
def step (env : Env) (op : Op) (s : ContractState) : Out RetVal :=
  match op with
  | .bootstrap a u b => (bootstrap env s a u b).retMap (fun _ => .unit)
  | .register_agent a => (register_agent env s a).retMap (fun _ => .unit)
  | .remove_agent a => (remove_agent env s a).retMap (fun _ => .unit)
  | .update_fee b => (update_fee env s b).retMap (fun _ => .unit)
  | .create_remittance sndr agt amt exp => (create_remittance env s sndr agt amt exp).retMap .newId
  | .confirm_payout rid => (confirm_payout env s rid).retMap (fun _ => .unit)
  | .cancel_remittance rid => (cancel_remittance env s rid).retMap (fun _ => .unit)
  | .withdraw_fees a => (withdraw_fees env s a).retMap (fun _ => .unit)
  | .batch_settle es => (batch_settle env s es).retMap .results

/-- Modelled from the spec (sections 5, 7 and 9): the hosting
environment runs each invocation inside an all-or-nothing envelope — a
failed invocation commits no ledger change, publishes no event and
executes no transfer. -/
def invoke (env : Env) (op : Op) (s : ContractState) : Out RetVal :=
  let o := step env op s
  match o.res with
  | .error e => ⟨.error e, s, [], []⟩
  | .ok _ => o

/-- Run a sequence of invocations, accumulating the committed transfer
log. -/
def runTrace : List (Env × Op) → ContractState → List Transfer →
    ContractState × List Transfer
  | [], s, log => (s, log)
  | (env, op) :: rest, s, log =>
    let o := invoke env op s
    runTrace rest o.state (log ++ o.transfers)

/-! ### Helper lemmas on the keyed store and the transfer log -/

theorem kvGet_kvSet_cases {α : Type} (l : List (Nat × α)) (k k' : Nat) (v : α) :
    kvGet (kvSet l k v) k' = if k = k' then some v else kvGet l k' := by
  by_cases h : k = k'
  · subst h
    simp [kvGet_kvSet_self]
  · simp [h, kvGet_kvSet_ne l k k' v h]

theorem kvGet_kvSet_isSome_mono {α : Type} (l : List (Nat × α)) (k k' : Nat)
    (v : α) (h : (kvGet l k').isSome = true) :
    (kvGet (kvSet l k v) k').isSome = true := by
  rw [kvGet_kvSet_cases]
  by_cases hk : k = k' <;> simp [hk, h]

theorem kvSet_presence_eq {α : Type} (l : List (Nat × α)) (k : Nat) (v : α)
    (h : (kvGet l k).isSome = true) (k' : Nat) :
    (kvGet (kvSet l k v) k').isSome = (kvGet l k').isSome := by
  rw [kvGet_kvSet_cases]
  by_cases hk : k = k'
  · subst hk
    simp [h]
  · simp [hk]

/-- Number of payout transfers for a given remittance id in a transfer
log. -/
def payoutsFor (id : Nat) (log : List Transfer) : Nat :=
  log.countP (fun t => decide (t.tag = TransferTag.payout id))

theorem payoutsFor_append (id : Nat) (l1 l2 : List Transfer) :
    payoutsFor id (l1 ++ l2) = payoutsFor id l1 + payoutsFor id l2 :=
  List.countP_append _ _ _

theorem payoutsFor_nil (id : Nat) : payoutsFor id [] = 0 := rfl

/-! ### Per-operation inversion lemmas (raw entry points) -/

theorem bootstrap_err_inv (env : Env) (s : ContractState) (a u b : Nat)
    (e : ContractError) (h : (bootstrap env s a u b).res = .error e) :
    bootstrap env s a u b = ⟨.error e, s, [], []⟩ := by
  unfold bootstrap at h ⊢
  split at h
  · simp_all
  · split at h <;> simp_all

theorem bootstrap_ok_inv (env : Env) (s : ContractState) (a u b : Nat)
    (h : (bootstrap env s a u b).res = .ok ()) :
    s.admin = none ∧ b ≤ 10000 ∧
      bootstrap env s a u b =
        ⟨.ok (), { s with admin := some a, usdcToken := some u, feeBps := some b, counter := some 0, accumulatedFees := some 0 }, [], []⟩ := by
  unfold bootstrap at h ⊢
  cases ha : s.admin with
  | some a0 =>
    rw [ha] at h
    simp at h
  | none =>
    rw [ha] at h
    by_cases hb : 10000 < b
    · simp [hb] at h
    · exact ⟨rfl, by omega, by simp [hb]⟩

theorem register_agent_err_inv (env : Env) (s : ContractState) (a : Nat)
    (e : ContractError) (h : (register_agent env s a).res = .error e) :
    register_agent env s a = ⟨.error e, s, [], []⟩ := by
  unfold register_agent at h ⊢
  split at h <;> simp_all

theorem register_agent_ok_inv (env : Env) (s : ContractState) (a : Nat)
    (h : (register_agent env s a).res = .ok ()) :
    ∃ admin, s.admin = some admin ∧
      register_agent env s a =
        ⟨.ok (), { s with agents := kvSet s.agents a true },
         [.agentRegistered 1 env.sequence env.timestamp a admin], []⟩ := by
  unfold register_agent at h ⊢
  split at h <;> simp_all

theorem remove_agent_err_inv (env : Env) (s : ContractState) (a : Nat)
    (e : ContractError) (h : (remove_agent env s a).res = .error e) :
    remove_agent env s a = ⟨.error e, s, [], []⟩ := by
  unfold remove_agent at h ⊢
  split at h <;> simp_all

theorem remove_agent_ok_inv (env : Env) (s : ContractState) (a : Nat)
    (h : (remove_agent env s a).res = .ok ()) :
    ∃ admin, s.admin = some admin ∧
      remove_agent env s a =
        ⟨.ok (), { s with agents := kvSet s.agents a false },
         [.agentRemoved 1 env.sequence env.timestamp a admin], []⟩ := by
  unfold remove_agent at h ⊢
  split at h <;> simp_all

theorem update_fee_err_inv (env : Env) (s : ContractState) (b : Nat)
    (e : ContractError) (h : (update_fee env s b).res = .error e) :
    update_fee env s b = ⟨.error e, s, [], []⟩ := by
  unfold update_fee at h ⊢
  split at h
  · simp_all
  · split at h <;> simp_all

theorem update_fee_ok_inv (env : Env) (s : ContractState) (b : Nat)
    (h : (update_fee env s b).res = .ok ()) :
    ∃ admin, s.admin = some admin ∧ b ≤ 10000 ∧
      update_fee env s b =
        ⟨.ok (), { s with feeBps := some b },
         [.feeUpdated 1 env.sequence env.timestamp admin b b], []⟩ := by
  unfold update_fee at h ⊢
  cases ha : s.admin with
  | none =>
    rw [ha] at h
    simp at h
  | some admin =>
    rw [ha] at h
    by_cases hb : 10000 < b
    · simp [hb] at h
    · exact ⟨admin, rfl, by omega, by simp [hb]⟩

theorem create_remittance_err_state (env : Env) (s : ContractState)
    (sndr agt : Nat) (amt : Int) (exp : Option Nat) (e : ContractError)
    (h : (create_remittance env s sndr agt amt exp).res = .error e) :
    (create_remittance env s sndr agt amt exp).state = s := by
  unfold create_remittance at h ⊢
  repeat' split at h
  all_goals (repeat' split)
  all_goals simp_all

theorem confirm_payout_err_state (env : Env) (s : ContractState) (rid : Nat)
    (e : ContractError)
    (h : (confirm_payout env s rid).res = .error e) :
    (confirm_payout env s rid).state = s := by
  unfold confirm_payout at h ⊢
  repeat' split at h
  all_goals (repeat' split)
  all_goals simp_all

theorem cancel_remittance_err_state (env : Env) (s : ContractState) (rid : Nat)
    (e : ContractError)
    (h : (cancel_remittance env s rid).res = .error e) :
    (cancel_remittance env s rid).state = s := by
  unfold cancel_remittance at h ⊢
  repeat' split at h
  all_goals (repeat' split)
  all_goals simp_all

theorem withdraw_fees_err_state (env : Env) (s : ContractState) (a : Nat)
    (e : ContractError)
    (h : (withdraw_fees env s a).res = .error e) :
    (withdraw_fees env s a).state = s := by
  unfold withdraw_fees at h ⊢
  repeat' split at h
  all_goals (repeat' split)
  all_goals simp_all

theorem create_remittance_ok_inv (env : Env) (s : ContractState)
    (sndr agt : Nat) (amt : Int) (exp : Option Nat) (rid : Nat)
    (h : (create_remittance env s sndr agt amt exp).res = .ok rid) :
    ∃ c fee usdc, s.counter = some c ∧ rid = c + 1 ∧ s.usdcToken = some usdc ∧
      c + 1 ≤ u64Max ∧
      create_remittance env s sndr agt amt exp =
        ⟨.ok rid, { s with remittances := kvSet s.remittances rid ⟨rid, sndr, agt, amt, fee, RemittanceStatus.Pending, exp⟩, counter := some rid },
         [.remitCreated 1 env.sequence env.timestamp rid sndr agt usdc amt fee],
         [⟨sndr, env.contractAddr, amt, .deposit⟩]⟩ := by
  unfold create_remittance at h ⊢
  by_cases h1 : amt ≤ 0
  · simp [h1] at h
  · rw [if_neg h1] at h ⊢
    by_cases h2 : is_agent_registered s agt
    · rw [h2] at h ⊢
      simp only [Bool.not_true, Bool.false_eq_true, if_false] at h ⊢
      cases h3 : s.feeBps with
      | none => simp only [h3] at h; simp at h
      | some bps =>
        simp only [h3] at h
        cases h4 : checkedMulI128 amt bps with
        | none => simp only [h4] at h; simp at h
        | some m =>
          simp only [h4] at h
          cases h5 : checkedDivI128 m 10000 with
          | none => simp only [h5] at h; simp at h
          | some fee =>
            simp only [h5] at h
            cases h6 : s.usdcToken with
            | none => simp only [h6] at h; simp at h
            | some usdc =>
              simp only [h6] at h
              cases h7 : s.counter with
              | none => simp only [h7] at h; simp at h
              | some c =>
                simp only [h7] at h
                cases h8 : checkedAddU64 c 1 with
                | none => simp only [h8] at h; simp at h
                | some rid2 =>
                  simp only [h8] at h
                  have hr : rid2 = rid := by simpa using h
                  subst hr
                  have hc : rid2 = c + 1 ∧ c + 1 ≤ u64Max := by
                    unfold checkedAddU64 at h8
                    split at h8
                    · simp at h8
                    · rename_i hb
                      simp at h8
                      omega
                  refine ⟨c, fee, usdc, rfl, hc.1, rfl, hc.2, ?_⟩
                  simp [h3, h4, h5, h6, h7, h8]
    · simp [h2] at h

theorem confirm_payout_ok_inv (env : Env) (s : ContractState) (rid : Nat)
    (h : (confirm_payout env s rid).res = .ok ()) :
    ∃ r payout usdc fees newFees,
      kvGet s.remittances rid = some r ∧ r.status = .Pending ∧
      rid ∉ s.markers ∧ isExpired env r = false ∧
      r.agent ∉ env.invalidAddrs ∧
      checkedSubI128 r.amount r.fee = some payout ∧
      s.usdcToken = some usdc ∧ s.accumulatedFees = some fees ∧
      checkedAddI128 fees r.fee = some newFees ∧
      confirm_payout env s rid =
        ⟨.ok (), { s with accumulatedFees := some newFees, remittances := kvSet s.remittances rid { r with status := RemittanceStatus.Completed }, markers := rid :: s.markers },
         [.remitCompleted 1 env.sequence env.timestamp rid r.sender r.agent usdc payout],
         [⟨env.contractAddr, r.agent, payout, .payout rid⟩]⟩ := by
  unfold confirm_payout at h ⊢
  cases h1 : kvGet s.remittances rid with
  | none => simp only [h1] at h; simp at h
  | some r =>
    simp only [h1] at h
    by_cases h2 : r.status = RemittanceStatus.Pending
    · rw [if_neg (by simp [h2])] at h
      by_cases h3 : has_settlement_hash s rid
      · simp [h3] at h
      · simp only [Bool.not_eq_true] at h3
        rw [h3] at h
        simp only [Bool.false_eq_true, if_false] at h
        by_cases h4 : isExpired env r
        · simp [h4] at h
        · simp only [Bool.not_eq_true] at h4
          rw [h4] at h
          simp only [Bool.false_eq_true, if_false] at h
          by_cases h5 : r.agent ∈ env.invalidAddrs
          · simp [h5] at h
          · rw [if_neg h5] at h
            cases h6 : checkedSubI128 r.amount r.fee with
            | none => simp only [h6] at h; simp at h
            | some payout =>
              simp only [h6] at h
              cases h7 : s.usdcToken with
              | none => simp only [h7] at h; simp at h
              | some usdc =>
                simp only [h7] at h
                cases h8 : s.accumulatedFees with
                | none => simp only [h8] at h; simp at h
                | some fees =>
                  simp only [h8] at h
                  cases h9 : checkedAddI128 fees r.fee with
                  | none => simp only [h9] at h; simp at h
                  | some newFees =>
                    have hmark : rid ∉ s.markers := by
                      simpa [has_settlement_hash] using h3
                    refine ⟨r, payout, usdc, fees, newFees, rfl, h2, hmark,
                      h4, h5, h6, rfl, rfl, h9, ?_⟩
                    simp [h1, h2, h3, h4, h5, h6, h7, h8, h9]
    · simp [h2] at h

theorem cancel_remittance_ok_inv (env : Env) (s : ContractState) (rid : Nat)
    (h : (cancel_remittance env s rid).res = .ok ()) :
    ∃ r usdc, kvGet s.remittances rid = some r ∧
      r.status = .Pending ∧ s.usdcToken = some usdc ∧
      cancel_remittance env s rid =
        ⟨.ok (), { s with remittances := kvSet s.remittances rid { r with status := RemittanceStatus.Cancelled } },
         [.remitCancelled 1 env.sequence env.timestamp rid r.sender r.agent usdc r.amount],
         [⟨env.contractAddr, r.sender, r.amount, .refund rid⟩]⟩ := by
  unfold cancel_remittance at h ⊢
  cases h1 : kvGet s.remittances rid with
  | none => simp only [h1] at h; simp at h
  | some r =>
    simp only [h1] at h
    by_cases h2 : r.status = RemittanceStatus.Pending
    · rw [if_neg (by simp [h2])] at h
      cases h3 : s.usdcToken with
      | none => simp only [h3] at h; simp at h
      | some usdc =>
        refine ⟨r, usdc, rfl, h2, rfl, ?_⟩
        simp [h1, h2, h3]
    · simp [h2] at h

theorem withdraw_fees_ok_inv (env : Env) (s : ContractState) (toA : Nat)
    (h : (withdraw_fees env s toA).res = .ok ()) :
    ∃ admin fees usdc, s.admin = some admin ∧ toA ∉ env.invalidAddrs ∧
      s.accumulatedFees = some fees ∧ 0 < fees ∧ s.usdcToken = some usdc ∧
      withdraw_fees env s toA =
        ⟨.ok (), { s with accumulatedFees := some 0 },
         [.feesWithdrawn 1 env.sequence env.timestamp admin toA usdc fees],
         [⟨env.contractAddr, toA, fees, .feeWithdraw⟩]⟩ := by
  unfold withdraw_fees at h ⊢
  cases h1 : s.admin with
  | none => simp only [h1] at h; simp at h
  | some admin =>
    simp only [h1] at h
    by_cases h2 : toA ∈ env.invalidAddrs
    · simp [h2] at h
    · rw [if_neg h2] at h
      cases h3 : s.accumulatedFees with
      | none => simp only [h3] at h; simp at h
      | some fees =>
        simp only [h3] at h
        by_cases h4 : fees ≤ 0
        · simp [h4] at h
        · rw [if_neg h4] at h
          cases h5 : s.usdcToken with
          | none => simp only [h5] at h; simp at h
          | some usdc =>
            refine ⟨admin, fees, usdc, rfl, h2, rfl, by omega, rfl, ?_⟩
            simp [h1, h2, h3, h4, h5]

theorem Out.retMap_res {α : Type} (f : α → RetVal) (o : Out α) :
    (o.retMap f).res = o.res.map f := rfl

theorem Out.retMap_state {α : Type} (f : α → RetVal) (o : Out α) :
    (o.retMap f).state = o.state := rfl

theorem except_map_error_iff {ε α β : Type} (f : α → β) (x : Except ε α)
    (e : ε) : x.map f = .error e ↔ x = .error e := by
  cases x <;> simp [Except.map]

/-! ### Concrete fixtures used by witnesses and counterexamples -/

/-- A host environment with no malformed principals. -/
def envW : Env := ⟨100, 5, 99, []⟩

/-- The state before the one-time bootstrap: no key ever written. -/
def emptyState : ContractState := ⟨none, none, none, none, none, [], [], []⟩

/-- A pending remittance: amount 1000, frozen fee 25, no expiry. -/
def remW : Remittance := ⟨1, 4, 3, 1000, 25, .Pending, none⟩

/-- An initialized state holding remittance 1 (pending) with an empty
fee pool. -/
def stateW : ContractState :=
  ⟨some 1, some 2, some 250, some 1, some 0, [(3, true)], [(1, remW)], []⟩

/-- Same as stateW with 40 units already accumulated in the fee pool. -/
def stateWF : ContractState :=
  ⟨some 1, some 2, some 250, some 1, some 40, [(3, true)], [(1, remW)], []⟩

/-! ### Claim theorems -/

/-- C2: every operation that returns an error commits no state change,
no event and no transfer (the hosting envelope discards the effects of a
failed invocation); moreover for every entry point except batch_settle
even the straight-line code never mutates the state before returning an
error. -/
theorem c2_zero_partial_state_on_error :
    (∀ (env : Env) (op : Op) (s : ContractState) (e : ContractError),
      (invoke env op s).res = .error e →
      (invoke env op s).state = s ∧ (invoke env op s).events = [] ∧
        (invoke env op s).transfers = []) ∧
    (∀ (env : Env) (op : Op) (s : ContractState) (e : ContractError),
      (∀ es, op ≠ .batch_settle es) →
      (step env op s).res = .error e → (step env op s).state = s) := by
  constructor
  · intro env op s e h
    unfold invoke at h ⊢
    dsimp only at h ⊢
    cases hr : (step env op s).res with
    | error e2 => simp [hr]
    | ok v => simp [hr] at h
  · intro env op s e hnb h
    cases op with
    | batch_settle es => exact absurd rfl (hnb es)
    | bootstrap a u b =>
      simp only [step, Out.retMap_res, except_map_error_iff] at h
      simpa using congrArg Out.state (bootstrap_err_inv env s a u b e h)
    | register_agent a =>
      simp only [step, Out.retMap_res, except_map_error_iff] at h
      simpa using congrArg Out.state (register_agent_err_inv env s a e h)
    | remove_agent a =>
      simp only [step, Out.retMap_res, except_map_error_iff] at h
      simpa using congrArg Out.state (remove_agent_err_inv env s a e h)
    | update_fee b =>
      simp only [step, Out.retMap_res, except_map_error_iff] at h
      simpa using congrArg Out.state (update_fee_err_inv env s b e h)
    | create_remittance sndr agt amt exp =>
      simp only [step, Out.retMap_res, except_map_error_iff] at h
      simpa using create_remittance_err_state env s sndr agt amt exp e h
    | confirm_payout rid =>
      simp only [step, Out.retMap_res, except_map_error_iff] at h
      simpa using confirm_payout_err_state env s rid e h
    | cancel_remittance rid =>
      simp only [step, Out.retMap_res, except_map_error_iff] at h
      simpa using cancel_remittance_err_state env s rid e h
    | withdraw_fees a =>
      simp only [step, Out.retMap_res, except_map_error_iff] at h
      simpa using withdraw_fees_err_state env s a e h

/-- Witness for C2: a confirm_payout on an id that does not exist fails
NotFound and leaves the empty state untouched, with no event and no
transfer. -/
theorem c2_zero_partial_state_on_error_witness :
    ((invoke envW (.confirm_payout 1) emptyState).state = emptyState ∧
      (invoke envW (.confirm_payout 1) emptyState).events = [] ∧
      (invoke envW (.confirm_payout 1) emptyState).transfers = []) ∧
    (step envW (.withdraw_fees 7) emptyState).state = emptyState :=
  ⟨c2_zero_partial_state_on_error.1 envW (.confirm_payout 1) emptyState
     .NotFound rfl,
   c2_zero_partial_state_on_error.2 envW (.withdraw_fees 7) emptyState
     .NotFound (by intro es hc; cases hc) rfl⟩

/-- C6: confirming a pending, unmarked remittance whose expiry T lies
strictly before the current ledger time fails SettlementExpired and
returns the state unchanged — status still Pending, fee pool, markers
and transfer log untouched. -/
theorem c6_confirm_payout_expired (env : Env) (s : ContractState)
    (rid T : Nat) (r : Remittance) (hr : kvGet s.remittances rid = some r)
    (hst : r.status = .Pending) (hm : rid ∉ s.markers)
    (hexp : r.expiry = some T) (ht : T < env.timestamp) :
    confirm_payout env s rid = ⟨.error .SettlementExpired, s, [], []⟩ := by
  unfold confirm_payout
  simp only [hr]
  rw [if_neg (by simp [hst])]
  rw [if_neg (by simp [has_settlement_hash, hm])]
  rw [if_pos (by simp [isExpired, hexp, ht])]

/-- Witness for C6: remittance 1 with expiry 50 confirmed at ledger time
100 fails SettlementExpired with no state change. -/
theorem c6_confirm_payout_expired_witness :
    confirm_payout envW
      ⟨some 1, some 2, some 250, some 1, some 0, [(3, true)],
       [(1, ⟨1, 4, 3, 1000, 25, .Pending, some 50⟩)], []⟩ 1 =
      ⟨.error .SettlementExpired,
       ⟨some 1, some 2, some 250, some 1, some 0, [(3, true)],
        [(1, ⟨1, 4, 3, 1000, 25, .Pending, some 50⟩)], []⟩, [], []⟩ :=
  c6_confirm_payout_expired envW _ 1 50 ⟨1, 4, 3, 1000, 25, .Pending, some 50⟩
    (by decide) rfl (by decide) rfl (by decide)

/-- C9: withdraw_fees with a non-positive pool fails NoFeesToWithdraw
and changes nothing; with a positive pool it transfers exactly the pool
to the recipient and resets the pool to exactly zero. -/
theorem c9_withdraw_fees_spec (env : Env) (s : ContractState)
    (a toA usdc : Nat) (F : Int) (hadmin : s.admin = some a)
    (hto : toA ∉ env.invalidAddrs) (husdc : s.usdcToken = some usdc)
    (hF : s.accumulatedFees = some F) :
    (F ≤ 0 → withdraw_fees env s toA = ⟨.error .NoFeesToWithdraw, s, [], []⟩) ∧
    (0 < F → withdraw_fees env s toA =
      ⟨.ok (), { s with accumulatedFees := some 0 },
       [.feesWithdrawn 1 env.sequence env.timestamp a toA usdc F],
       [⟨env.contractAddr, toA, F, .feeWithdraw⟩]⟩) := by
  constructor
  · intro hF0
    unfold withdraw_fees
    simp only [hadmin, hF]
    rw [if_neg hto, if_pos hF0]
  · intro hF0
    unfold withdraw_fees
    simp only [hadmin, hF, husdc]
    rw [if_neg hto, if_neg (by omega)]

/-- Witness for C9: with pool 0 the withdrawal fails NoFeesToWithdraw
leaving the state unchanged; with pool 40 it succeeds, transfers 40 and
zeroes the pool. -/
theorem c9_withdraw_fees_spec_witness :
    withdraw_fees envW stateW 7 = ⟨.error .NoFeesToWithdraw, stateW, [], []⟩ ∧
    withdraw_fees envW stateWF 7 =
      ⟨.ok (), { stateWF with accumulatedFees := some 0 },
       [.feesWithdrawn 1 5 100 1 7 2 40],
       [⟨99, 7, 40, .feeWithdraw⟩]⟩ :=
  ⟨(c9_withdraw_fees_spec envW stateW 1 7 2 0 rfl (by decide) rfl rfl).1
     (by decide),
   (c9_withdraw_fees_spec envW stateWF 1 7 2 40 rfl (by decide) rfl rfl).2
     (by decide)⟩

/-- C10: a successful update_fee emits a fee-updated event whose
old-fee field equals the new rate (the stored rate is overwritten before
the old value is read back), whatever rate the state held before. -/
theorem c10_update_fee_event_old_is_new (env : Env) (s : ContractState)
    (a bps : Nat) (hadmin : s.admin = some a) (hbps : bps ≤ 10000) :
    (update_fee env s bps).res = .ok () ∧
    (update_fee env s bps).events =
      [.feeUpdated 1 env.sequence env.timestamp a bps bps] := by
  unfold update_fee
  simp [hadmin, Nat.not_lt.mpr hbps]

/-- Witness for C10: updating the rate from 250 to 300 emits a
fee-updated event carrying old-fee 300, not 250. -/
theorem c10_update_fee_event_old_is_new_witness :
    (update_fee envW stateW 300).res = .ok () ∧
    (update_fee envW stateW 300).events = [.feeUpdated 1 5 100 1 300 300] :=
  c10_update_fee_event_old_is_new envW stateW 1 300 rfl (by decide)

/-- C4: for amount > 0 and a stored fee rate of at most 10000 basis
points, create_remittance fails Overflow in the fee computation exactly
when the 128-bit product amount × fee_bps overflows; otherwise it stores
a record whose fee is the truncating (equivalently flooring, both
operands nonnegative) division of the product by 10000, with
0 ≤ fee ≤ amount and payout amount − fee ≥ 0. -/
theorem c4_create_remittance_fee (env : Env) (s : ContractState)
    (sndr agt : Nat) (amount : Int) (exp : Option Nat)
    (bps c usdc : Nat) (hamt : 0 < amount) (hbps : s.feeBps = some bps)
    (hb : bps ≤ 10000) (hreg : is_agent_registered s agt = true)
    (husdc : s.usdcToken = some usdc) (hctr : s.counter = some c)
    (hc : c + 1 ≤ u64Max) :
    (i128Max < amount * (bps : Int) →
      (create_remittance env s sndr agt amount exp).res = .error .Overflow) ∧
    (amount * (bps : Int) ≤ i128Max →
      ∃ fee, (create_remittance env s sndr agt amount exp).res = .ok (c + 1) ∧
        kvGet (create_remittance env s sndr agt amount exp).state.remittances (c + 1)
          = some ⟨c + 1, sndr, agt, amount, fee, .Pending, exp⟩ ∧
        fee = Int.tdiv (amount * (bps : Int)) 10000 ∧
        fee = Int.fdiv (amount * (bps : Int)) 10000 ∧
        0 ≤ fee ∧ fee ≤ amount ∧ 0 ≤ amount - fee) := by
  have hprod : 0 ≤ amount * (bps : Int) :=
    mul_nonneg (le_of_lt hamt) (by positivity)
  constructor
  · intro hov
    have hm : checkedMulI128 amount (bps : Int) = none := by
      unfold checkedMulI128
      rw [if_pos (Or.inr hov)]
    unfold create_remittance
    rw [if_neg (not_le.mpr hamt)]
    simp only [hreg, Bool.not_true, Bool.false_eq_true, if_false, hbps, hm]
  · intro hle
    have hm : checkedMulI128 amount (bps : Int) = some (amount * bps) := by
      unfold checkedMulI128
      rw [if_neg]
      rintro (h1 | h2)
      · have : (i128Min : Int) ≤ 0 := by norm_num [i128Min]
        omega
      · omega
    have hd : checkedDivI128 (amount * bps) 10000
        = some (Int.tdiv (amount * bps) 10000) := by
      unfold checkedDivI128
      rw [if_neg (by norm_num), if_neg (by rintro ⟨-, h⟩; norm_num at h)]
    have ha : checkedAddU64 c 1 = some (c + 1) := by
      unfold checkedAddU64
      rw [if_neg (not_lt.mpr hc)]
    have hfee0 : 0 ≤ Int.tdiv (amount * bps) 10000 := by
      rw [Int.div_eq_ediv hprod (by norm_num)]
      exact Int.ediv_nonneg hprod (by norm_num)
    have hfeele : Int.tdiv (amount * bps) 10000 ≤ amount := by
      rw [Int.div_eq_ediv hprod (by norm_num)]
      calc amount * (bps : Int) / 10000 ≤ amount * 10000 / 10000 :=
            Int.ediv_le_ediv (by norm_num)
              (mul_le_mul_of_nonneg_left (by exact_mod_cast hb)
                (le_of_lt hamt))
        _ = amount := Int.mul_ediv_cancel _ (by norm_num)
    have heq : create_remittance env s sndr agt amount exp =
        ⟨.ok (c + 1), { s with remittances := kvSet s.remittances (c + 1) ⟨c + 1, sndr, agt, amount, Int.tdiv (amount * bps) 10000, .Pending, exp⟩, counter := some (c + 1) },
         [.remitCreated 1 env.sequence env.timestamp (c + 1) sndr agt usdc amount (Int.tdiv (amount * bps) 10000)],
         [⟨sndr, env.contractAddr, amount, .deposit⟩]⟩ := by
      unfold create_remittance
      rw [if_neg (not_le.mpr hamt)]
      simp only [hreg, Bool.not_true, Bool.false_eq_true, if_false, hbps, hm,
        hd, husdc, hctr, ha]
    refine ⟨Int.tdiv (amount * bps) 10000, by rw [heq], ?_, rfl,
      (Int.fdiv_eq_tdiv hprod (by norm_num)).symm, hfee0, hfeele, by omega⟩
    rw [heq]
    exact kvGet_kvSet_self s.remittances (c + 1) _

/-- Witness for C4: creating a remittance of 1000 at 250 basis points
yields id 2 with frozen fee 25 = floor(1000·250/10000) and
nonnegative payout. -/
theorem c4_create_remittance_fee_witness :
    ∃ fee, (create_remittance envW stateW 4 3 1000 none).res = .ok 2 ∧
      kvGet (create_remittance envW stateW 4 3 1000 none).state.remittances 2
        = some ⟨2, 4, 3, 1000, fee, .Pending, none⟩ ∧
      fee = Int.tdiv ((1000 : Int) * ((250 : Nat) : Int)) 10000 ∧
      fee = Int.fdiv ((1000 : Int) * ((250 : Nat) : Int)) 10000 ∧
      0 ≤ fee ∧ fee ≤ 1000 ∧ 0 ≤ (1000 : Int) - fee :=
  (c4_create_remittance_fee envW stateW 4 3 1000 none 250 1 2 (by decide) rfl
    (by decide) (by decide) rfl rfl (by decide)).2 (by decide)

/-! ### Batch settlement lemmas -/

theorem validateEntry_ok_inv (env : Env) (s : ContractState) (i : Nat)
    (e : BatchSettleEntry) (v : ValidatedSettlement)
    (h : validateEntry env s i e = .ok v) :
    v.remittance_id = e.remittance_id ∧
    ∃ r, kvGet s.remittances e.remittance_id = some r ∧
      r.status = .Pending ∧ e.remittance_id ∉ s.markers ∧
      isExpired env r = false ∧ r.agent ∉ env.invalidAddrs ∧
      checkedSubI128 r.amount r.fee = some v.payout_amount ∧
      v.agent = r.agent ∧ v.fee = r.fee ∧ v.sender = r.sender := by
  unfold validateEntry at h
  cases h1 : kvGet s.remittances e.remittance_id with
  | none => simp only [h1] at h; simp at h
  | some r =>
    simp only [h1] at h
    by_cases h2 : r.status = RemittanceStatus.Pending
    · rw [if_neg (by simp [h2])] at h
      by_cases h3 : has_settlement_hash s e.remittance_id
      · simp [h3] at h
      · simp only [Bool.not_eq_true] at h3
        rw [h3] at h
        simp only [Bool.false_eq_true, if_false] at h
        by_cases h4 : isExpired env r
        · simp [h4] at h
        · simp only [Bool.not_eq_true] at h4
          rw [h4] at h
          simp only [Bool.false_eq_true, if_false] at h
          by_cases h5 : r.agent ∈ env.invalidAddrs
          · simp [h5] at h
          · rw [if_neg h5] at h
            cases h6 : checkedSubI128 r.amount r.fee with
            | none => simp only [h6] at h; simp at h
            | some payout =>
              simp only [h6] at h
              have hv : v = ⟨e.remittance_id, r.agent, payout, r.fee, r.sender⟩ := by
                simpa using h.symm
              subst hv
              exact ⟨rfl, r, rfl, h2,
                by simpa [has_settlement_hash] using h3, h4, h5, h6,
                rfl, rfl, rfl⟩
    · simp [h2] at h

theorem batchValidate_ok_inv (env : Env) (s : ContractState) :
    ∀ (entries : List BatchSettleEntry) (i : Nat)
      (vs : List ValidatedSettlement),
      batchValidate env s entries i = .ok vs →
      vs.map (fun v => v.remittance_id) =
        entries.map (fun e => e.remittance_id) ∧
      ∀ v ∈ vs, ∃ r, kvGet s.remittances v.remittance_id = some r ∧
        r.status = .Pending ∧ v.remittance_id ∉ s.markers ∧
        checkedSubI128 r.amount r.fee = some v.payout_amount ∧
        v.agent = r.agent ∧ v.fee = r.fee ∧ v.sender = r.sender
  | [], i, vs, h => by
      simp only [batchValidate] at h
      have : vs = [] := by simpa using h.symm
      subst this
      simp
  | e :: rest, i, vs, h => by
      simp only [batchValidate] at h
      cases h1 : validateEntry env s i e with
      | error ev => simp only [h1] at h; simp at h
      | ok v =>
        simp only [h1] at h
        cases h2 : batchValidate env s rest (i + 1) with
        | error ev => simp only [h2] at h; simp at h
        | ok vs2 =>
          simp only [h2] at h
          have hvs : vs = v :: vs2 := by simpa using h.symm
          subst hvs
          obtain ⟨hmap, hmem⟩ := batchValidate_ok_inv env s rest (i + 1) vs2 h2
          obtain ⟨hid, r, hr, hst, hm, hexp, hag, hsub, hva, hvf, hvs⟩ :=
            validateEntry_ok_inv env s i e v h1
          refine ⟨by simp [hmap, hid], ?_⟩
          intro v2 hv2
          rcases List.mem_cons.mp hv2 with hveq | hvmem
          · subst hveq
            exact ⟨r, by rw [hid]; exact hr, hst, by rw [hid]; exact hm,
              hsub, hva, hvf, hvs⟩
          · exact hmem v2 hvmem

/-- The payout transfer executed by phase 2 for one validated
settlement. -/
def payoutTransfer (env : Env) (v : ValidatedSettlement) : Transfer :=
  ⟨env.contractAddr, v.agent, v.payout_amount, .payout v.remittance_id⟩

theorem batchExecute_ok_inv (env : Env) (usdc : Nat) :
    ∀ (vs : List ValidatedSettlement) (s : ContractState) (evts : List Event)
      (trs : List Transfer) (results : List BatchSettleResult) (succ : Nat)
      (total : Int) (out : List BatchSettleResult × Nat × Int),
      (batchExecute env usdc vs s evts trs results succ total).res = .ok out →
      (batchExecute env usdc vs s evts trs results succ total).transfers =
        trs ++ vs.map (payoutTransfer env) ∧
      (batchExecute env usdc vs s evts trs results succ total).state.markers =
        (vs.map (fun v => v.remittance_id)).reverse ++ s.markers ∧
      (batchExecute env usdc vs s evts trs results succ total).state.counter =
        s.counter ∧
      (batchExecute env usdc vs s evts trs results succ total).state.admin =
        s.admin ∧
      (∀ id, id ∉ vs.map (fun v => v.remittance_id) →
        kvGet (batchExecute env usdc vs s evts trs results succ total).state.remittances id
          = kvGet s.remittances id) ∧
      (∀ id, (kvGet (batchExecute env usdc vs s evts trs results succ total).state.remittances id).isSome = true →
        (kvGet s.remittances id).isSome = true)
  | [], s, evts, trs, results, succ, total, out, h => by
      simp [batchExecute]
  | v :: rest, s, evts, trs, results, succ, total, out, h => by
      simp only [batchExecute] at h ⊢
      cases hf : s.accumulatedFees with
      | none => simp only [hf] at h; simp at h
      | some fees =>
        simp only [hf] at h ⊢
        cases hadd : checkedAddI128 fees v.fee with
        | none => simp only [hadd] at h; simp at h
        | some newFees =>
          simp only [hadd] at h ⊢
          cases hre : kvGet s.remittances v.remittance_id with
          | none => simp only [hre] at h; simp at h
          | some r =>
            simp only [hre] at h ⊢
            cases htot : checkedAddI128 total v.payout_amount with
            | none => simp only [htot] at h; simp at h
            | some total2 =>
              simp only [htot] at h ⊢
              obtain ⟨ih1, ih2, ih3, ih4, ih5, ih6⟩ :=
                batchExecute_ok_inv env usdc rest _ _ _ _ _ _ out h
              refine ⟨?_, ?_, by simpa using ih3, by simpa using ih4, ?_, ?_⟩
              · rw [ih1]
                simp [payoutTransfer]
              · rw [ih2]
                simp
              · intro id hid
                simp only [List.map_cons, List.mem_cons, not_or] at hid
                rw [ih5 id hid.2]
                simpa using kvGet_kvSet_ne s.remittances v.remittance_id id _
                  (fun hc => hid.1 hc.symm)
              · intro id hid
                have h2 := ih6 id hid
                by_cases heq : v.remittance_id = id
                · subst heq
                  simp [hre]
                · rw [show kvGet (kvSet s.remittances v.remittance_id { r with status := RemittanceStatus.Completed }) id = kvGet s.remittances id from kvGet_kvSet_ne _ _ _ _ heq] at h2
                  exact h2

/-- Recognizer for the per-remittance completion event. -/
def isRemitCompletedEvent : Event → Bool
  | .remitCompleted _ _ _ _ _ _ _ _ => true
  | _ => false

/-- Recognizer for the terminal batch-completed event. -/
def isBatchCompletedEvent : Event → Bool
  | .batchCompleted _ _ _ _ _ _ => true
  | _ => false

/-- Recognizer for the terminal batch-failed diagnostic event. -/
def isBatchFailedEvent : Event → Bool
  | .batchFailed _ _ _ _ _ _ => true
  | _ => false

theorem batchExecute_events_extend (env : Env) (usdc : Nat) :
    ∀ (vs : List ValidatedSettlement) (s : ContractState) (evts : List Event)
      (trs : List Transfer) (results : List BatchSettleResult) (succ : Nat)
      (total : Int),
      ∃ extra, (batchExecute env usdc vs s evts trs results succ total).events
          = evts ++ extra ∧
        ∀ ev ∈ extra, isRemitCompletedEvent ev = true
  | [], s, evts, trs, results, succ, total => ⟨[], by simp [batchExecute], by simp⟩
  | v :: rest, s, evts, trs, results, succ, total => by
      simp only [batchExecute]
      cases hf : s.accumulatedFees with
      | none => exact ⟨[], by simp, by simp⟩
      | some fees =>
        simp only [hf]
        cases hadd : checkedAddI128 fees v.fee with
        | none => exact ⟨[], by simp, by simp⟩
        | some newFees =>
          simp only [hadd]
          cases hre : kvGet s.remittances v.remittance_id with
          | none => exact ⟨[], by simp, by simp⟩
          | some r =>
            simp only [hre]
            cases htot : checkedAddI128 total v.payout_amount with
            | none =>
              refine ⟨[.remitCompleted 1 env.sequence env.timestamp
                v.remittance_id v.sender v.agent usdc v.payout_amount], by simp, ?_⟩
              simp [isRemitCompletedEvent]
            | some total2 =>
              simp only [htot]
              obtain ⟨extra2, hev, hall⟩ := batchExecute_events_extend env usdc
                rest _ (evts ++ [.remitCompleted 1 env.sequence env.timestamp
                  v.remittance_id v.sender v.agent usdc v.payout_amount]) _ _ _ _
              refine ⟨.remitCompleted 1 env.sequence env.timestamp
                v.remittance_id v.sender v.agent usdc v.payout_amount :: extra2, ?_, ?_⟩
              · rw [hev]
                simp
              · intro ev hev2
                rcases List.mem_cons.mp hev2 with h1 | h1
                · subst h1
                  simp [isRemitCompletedEvent]
                · exact hall ev h1

theorem batchExecute_error_shape (env : Env) (usdc : Nat) :
    ∀ (vs : List ValidatedSettlement) (s : ContractState) (evts : List Event)
      (trs : List Transfer) (results : List BatchSettleResult) (succ : Nat)
      (total : Int) (e : ContractError),
      (batchExecute env usdc vs s evts trs results succ total).res = .error e →
      e = .NotFound ∨ e = .Overflow
  | [], s, evts, trs, results, succ, total, e, h => by
      simp [batchExecute] at h
  | v :: rest, s, evts, trs, results, succ, total, e, h => by
      simp only [batchExecute] at h
      cases hf : s.accumulatedFees with
      | none => simp only [hf] at h; simp at h; exact Or.inl h.symm
      | some fees =>
        simp only [hf] at h
        cases hadd : checkedAddI128 fees v.fee with
        | none => simp only [hadd] at h; simp at h; exact Or.inr h.symm
        | some newFees =>
          simp only [hadd] at h
          cases hre : kvGet s.remittances v.remittance_id with
          | none => simp only [hre] at h; simp at h; exact Or.inl h.symm
          | some r =>
            simp only [hre] at h
            cases htot : checkedAddI128 total v.payout_amount with
            | none => simp only [htot] at h; simp at h; exact Or.inr h.symm
            | some total2 =>
              simp only [htot] at h
              exact batchExecute_error_shape env usdc rest _ _ _ _ _ _ e h

theorem validateEntry_error_shape (env : Env) (s : ContractState) (i : Nat)
    (e : BatchSettleEntry) (ev : Event)
    (h : validateEntry env s i e = .error ev) :
    ∃ code, ev = batchFailedEvent env i e.remittance_id code := by
  unfold validateEntry at h
  repeat' split at h
  all_goals first
  | (injection h; done)
  | (injection h with h2; exact ⟨_, h2.symm⟩)

theorem batchValidate_error_shape (env : Env) (s : ContractState) :
    ∀ (entries : List BatchSettleEntry) (i : Nat) (ev : Event),
      batchValidate env s entries i = .error ev →
      isBatchFailedEvent ev = true
  | [], i, ev, h => by simp [batchValidate] at h
  | e :: rest, i, ev, h => by
      simp only [batchValidate] at h
      cases h1 : validateEntry env s i e with
      | error ev2 =>
        simp only [h1] at h
        obtain ⟨code, hcode⟩ := validateEntry_error_shape env s i e ev2 h1
        have : ev2 = ev := by simpa using h
        subst this
        subst hcode
        simp [batchFailedEvent, isBatchFailedEvent]
      | ok v =>
        simp only [h1] at h
        cases h2 : batchValidate env s rest (i + 1) with
        | error ev2 =>
          simp only [h2] at h
          have : ev2 = ev := by simpa using h
          subst this
          exact batchValidate_error_shape env s rest (i + 1) _ h2
        | ok vs2 => simp only [h2] at h; simp at h

theorem isRemitCompleted_not_terminal (ev : Event)
    (h : isRemitCompletedEvent ev = true) :
    isBatchCompletedEvent ev = false ∧ isBatchFailedEvent ev = false := by
  cases ev <;>
    simp_all [isRemitCompletedEvent, isBatchCompletedEvent, isBatchFailedEvent]

theorem isBatchFailed_not_completed (ev : Event)
    (h : isBatchFailedEvent ev = true) : isBatchCompletedEvent ev = false := by
  cases ev <;> simp_all [isBatchCompletedEvent, isBatchFailedEvent]

theorem countP_zero_of_remitCompleted (extra : List Event)
    (hall : ∀ ev ∈ extra, isRemitCompletedEvent ev = true) :
    extra.countP isBatchCompletedEvent = 0 ∧
      extra.countP isBatchFailedEvent = 0 := by
  constructor <;> rw [List.countP_eq_zero] <;> intro ev hev
  · simp [(isRemitCompleted_not_terminal ev (hall ev hev)).1]
  · simp [(isRemitCompleted_not_terminal ev (hall ev hev)).2]

/-- C7 (amended): batch_settle on an empty batch fails BatchEmpty before
emitting any event; on a non-empty batch the first emitted event is the
batch-started event, and afterwards a successful call emits exactly one
batch-completed and no batch-failed event, a call failing
BatchValidationFailed emits exactly one batch-failed and no
batch-completed event, and a call failing with any other error (missing
storage key before validation, or a phase-2 NotFound / Overflow) emits
no terminal event at all — so, against the original claim, a started
event can be followed by zero terminal events. -/
theorem c7_batch_settle_events (env : Env) (s : ContractState)
    (entries : List BatchSettleEntry) :
    (entries = [] → batch_settle env s entries = ⟨.error .BatchEmpty, s, [], []⟩) ∧
    (entries ≠ [] →
      (∃ rest, (batch_settle env s entries).events =
          .batchStarted 1 env.sequence env.timestamp entries.length :: rest) ∧
      (∀ rs, (batch_settle env s entries).res = .ok rs →
        (batch_settle env s entries).events.countP isBatchCompletedEvent = 1 ∧
        (batch_settle env s entries).events.countP isBatchFailedEvent = 0) ∧
      ((batch_settle env s entries).res = .error .BatchValidationFailed →
        (batch_settle env s entries).events.countP isBatchFailedEvent = 1 ∧
        (batch_settle env s entries).events.countP isBatchCompletedEvent = 0) ∧
      (∀ e, (batch_settle env s entries).res = .error e →
        e ≠ .BatchValidationFailed →
        (batch_settle env s entries).events.countP isBatchFailedEvent = 0 ∧
        (batch_settle env s entries).events.countP isBatchCompletedEvent = 0)) := by
  constructor
  · intro he
    subst he
    simp [batch_settle]
  · intro hne
    cases hu : s.usdcToken with
    | none =>
      have heq : batch_settle env s entries =
          ⟨.error .NotFound, s,
           [.batchStarted 1 env.sequence env.timestamp entries.length], []⟩ := by
        unfold batch_settle
        rw [if_neg (by simpa [List.isEmpty_iff] using hne)]
        simp only [hu]
      rw [heq]
      refine ⟨⟨[], rfl⟩, ?_, ?_, ?_⟩
      · intro rs hrs
        simp at hrs
      · intro hbvf
        simp at hbvf
      · intro e he1 hne2
        constructor <;> rfl
    | some usdc =>
      cases hv : batchValidate env s entries 0 with
      | error ev =>
        have hfev := batchValidate_error_shape env s entries 0 ev hv
        have heq : batch_settle env s entries =
            ⟨.error .BatchValidationFailed, s,
             [.batchStarted 1 env.sequence env.timestamp entries.length, ev],
             []⟩ := by
          unfold batch_settle
          rw [if_neg (by simpa [List.isEmpty_iff] using hne)]
          simp only [hu, hv]
        rw [heq]
        refine ⟨⟨[ev], rfl⟩, ?_, ?_, ?_⟩
        · intro rs hrs
          simp at hrs
        · intro _
          constructor
          · simp [List.countP_cons, hfev,
              show isBatchFailedEvent (.batchStarted 1 env.sequence env.timestamp entries.length) = false from rfl]
          · simp [List.countP_cons, isBatchFailed_not_completed ev hfev,
              show isBatchCompletedEvent (.batchStarted 1 env.sequence env.timestamp entries.length) = false from rfl]
        · intro e he1 hne2
          exfalso
          apply hne2
          simpa using he1.symm
      | ok vs =>
        obtain ⟨extra, hextra, hall⟩ := batchExecute_events_extend env usdc vs s
          [.batchStarted 1 env.sequence env.timestamp entries.length] [] [] 0 0
        obtain ⟨hc0, hf0⟩ := countP_zero_of_remitCompleted extra hall
        cases her : (batchExecute env usdc vs s
            [.batchStarted 1 env.sequence env.timestamp entries.length]
            [] [] 0 0).res with
        | error e2 =>
          have hshape := batchExecute_error_shape env usdc vs s _ _ _ _ _ e2 her
          have heq : batch_settle env s entries =
              ⟨.error e2,
               (batchExecute env usdc vs s
                 [.batchStarted 1 env.sequence env.timestamp entries.length]
                 [] [] 0 0).state,
               (batchExecute env usdc vs s
                 [.batchStarted 1 env.sequence env.timestamp entries.length]
                 [] [] 0 0).events,
               (batchExecute env usdc vs s
                 [.batchStarted 1 env.sequence env.timestamp entries.length]
                 [] [] 0 0).transfers⟩ := by
            unfold batch_settle
            rw [if_neg (by simpa [List.isEmpty_iff] using hne)]
            simp only [hu, hv, her]
          rw [heq]
          refine ⟨⟨extra, by simpa using hextra⟩, ?_, ?_, ?_⟩
          · intro rs hrs
            simp at hrs
          · intro hbvf
            exfalso
            have : e2 = ContractError.BatchValidationFailed := by simpa using hbvf
            rcases hshape with h | h <;> simp [this] at h
          · intro e he1 hne2
            constructor
            · simp only [hextra]
              rw [List.countP_append]
              simp [hf0, isBatchFailedEvent]
            · simp only [hextra]
              rw [List.countP_append]
              simp [hc0, isBatchCompletedEvent]
        | ok out =>
          obtain ⟨results, succ, total⟩ := out
          have heq : batch_settle env s entries =
              ⟨.ok results,
               (batchExecute env usdc vs s
                 [.batchStarted 1 env.sequence env.timestamp entries.length]
                 [] [] 0 0).state,
               (batchExecute env usdc vs s
                 [.batchStarted 1 env.sequence env.timestamp entries.length]
                 [] [] 0 0).events ++
                 [.batchCompleted 1 env.sequence env.timestamp entries.length
                   succ total],
               (batchExecute env usdc vs s
                 [.batchStarted 1 env.sequence env.timestamp entries.length]
                 [] [] 0 0).transfers⟩ := by
            unfold batch_settle
            rw [if_neg (by simpa [List.isEmpty_iff] using hne)]
            simp only [hu, hv, her]
          rw [heq]
          refine ⟨⟨extra ++ [.batchCompleted 1 env.sequence env.timestamp
            entries.length succ total], by simp [hextra]⟩, ?_, ?_, ?_⟩
          · intro rs hrs
            constructor
            · simp only [hextra]
              rw [List.countP_append, List.countP_append]
              simp [hc0, isBatchCompletedEvent]
            · simp only [hextra]
              rw [List.countP_append, List.countP_append]
              simp [hf0, isBatchFailedEvent]
          · intro hbvf
            simp at hbvf
          · intro e he1 hne2
            simp at he1

/-- Counterexample to C7 as stated: on an uninitialized state (no token
key), a non-empty batch emits the batch-started event and then fails
NotFound with no batch-failed and no batch-completed event — a path
with zero terminal events. -/
theorem c7_counterexample :
    (batch_settle envW emptyState [⟨1⟩]).events = [.batchStarted 1 5 100 1] ∧
    (batch_settle envW emptyState [⟨1⟩]).res = .error .NotFound ∧
    (batch_settle envW emptyState [⟨1⟩]).events.countP isBatchFailedEvent = 0 ∧
    (batch_settle envW emptyState [⟨1⟩]).events.countP isBatchCompletedEvent = 0 :=
  ⟨rfl, rfl, rfl, rfl⟩

/-- Witness for C7 (amended): a one-entry all-valid batch on an
initialized state emits started followed by exactly one batch-completed
and no batch-failed event. -/
theorem c7_batch_settle_events_witness :
    (∃ rest, (batch_settle envW stateW [⟨1⟩]).events =
        .batchStarted 1 5 100 1 :: rest) ∧
    (batch_settle envW stateW [⟨1⟩]).events.countP isBatchCompletedEvent = 1 ∧
    (batch_settle envW stateW [⟨1⟩]).events.countP isBatchFailedEvent = 0 :=
  ⟨((c7_batch_settle_events envW stateW [⟨1⟩]).2 (by simp)).1,
   ((c7_batch_settle_events envW stateW [⟨1⟩]).2 (by simp)).2.1
     [⟨1, true, 975⟩] rfl⟩

/-- An initialized state holding remittance 1 whose stored fee (10)
exceeds its amount (5) — constructible data the phase-1 validator must
judge. -/
def stateFeeGtAmount : ContractState :=
  ⟨some 1, some 2, some 250, some 1, some 0, [(3, true)],
   [(1, ⟨1, 4, 3, 5, 10, .Pending, none⟩)], []⟩

/-- Counterexample to C3 as stated: remittance 1 has fee 10 > amount 5,
yet the checked subtraction returns the negative payout −5 instead of
failing, the batch validates, executes a transfer of −5 and succeeds —
no BatchValidationFailed, no Overflow diagnostic. -/
theorem c3_counterexample :
    (batch_settle envW stateFeeGtAmount [⟨1⟩]).res = .ok [⟨1, true, -5⟩] ∧
    (batch_settle envW stateFeeGtAmount [⟨1⟩]).transfers =
      [⟨99, 3, -5, .payout 1⟩] ∧
    (batch_settle envW stateFeeGtAmount [⟨1⟩]).events.countP
      isBatchFailedEvent = 0 :=
  ⟨rfl, rfl, rfl⟩

/-- C3 (amended): for the first batch entry, phase-1's checked
subtraction aborts the whole call with BatchValidationFailed and an
Overflow-coded (reason 8) diagnostic event exactly when amount − fee
falls outside the i128 range; when amount − fee is representable — in
particular whenever fee > amount but the difference fits — the entry
validates and proceeds toward execution with payout amount − fee, which
is negative when fee > amount. -/
theorem c3_checked_sub_validation (env : Env) (s : ContractState)
    (rid : Nat) (rest : List BatchSettleEntry) (r : Remittance) (usdc : Nat)
    (hu : s.usdcToken = some usdc)
    (hr : kvGet s.remittances rid = some r) (hst : r.status = .Pending)
    (hm : rid ∉ s.markers) (hexp : isExpired env r = false)
    (hag : r.agent ∉ env.invalidAddrs) :
    ((r.amount - r.fee < i128Min ∨ i128Max < r.amount - r.fee) →
      batch_settle env s (⟨rid⟩ :: rest) =
        ⟨.error .BatchValidationFailed, s,
         [.batchStarted 1 env.sequence env.timestamp (⟨rid⟩ :: rest).length,
          batchFailedEvent env 0 rid 8], []⟩) ∧
    (¬(r.amount - r.fee < i128Min ∨ i128Max < r.amount - r.fee) →
      validateEntry env s 0 ⟨rid⟩ =
        .ok ⟨rid, r.agent, r.amount - r.fee, r.fee, r.sender⟩) := by
  constructor
  · intro hov
    have hsubnone : checkedSubI128 r.amount r.fee = none := by
      unfold checkedSubI128
      rw [if_pos hov]
    have hve : validateEntry env s 0 ⟨rid⟩ =
        .error (batchFailedEvent env 0 rid 8) := by
      unfold validateEntry
      simp only [hr]
      rw [if_neg (by simp [hst])]
      rw [if_neg (by simp [has_settlement_hash, hm])]
      rw [hexp]
      simp only [Bool.false_eq_true, if_false]
      rw [if_neg hag]
      simp only [hsubnone]
    have hbv : batchValidate env s (⟨rid⟩ :: rest) 0 =
        .error (batchFailedEvent env 0 rid 8) := by
      simp only [batchValidate, hve]
    unfold batch_settle
    rw [if_neg (by simp)]
    simp only [hu, hbv]
  · intro hov
    have hsub : checkedSubI128 r.amount r.fee = some (r.amount - r.fee) := by
      unfold checkedSubI128
      rw [if_neg hov]
    unfold validateEntry
    simp only [hr]
    rw [if_neg (by simp [hst])]
    rw [if_neg (by simp [has_settlement_hash, hm])]
    rw [hexp]
    simp only [Bool.false_eq_true, if_false]
    rw [if_neg hag]
    simp only [hsub]

/-- Witness for C3 (amended): a stored record with amount i128Min and
fee 1 makes amount − fee unrepresentable, so the batch aborts with
BatchValidationFailed and a reason-8 diagnostic at index 0; while the
fee-10 > amount-5 record of the counterexample state validates fine
with payout −5. -/
theorem c3_checked_sub_validation_witness :
    batch_settle envW
      ⟨some 1, some 2, some 250, some 1, some 0, [(3, true)],
       [(1, ⟨1, 4, 3, i128Min, 1, .Pending, none⟩)], []⟩ [⟨1⟩] =
      ⟨.error .BatchValidationFailed,
       ⟨some 1, some 2, some 250, some 1, some 0, [(3, true)],
        [(1, ⟨1, 4, 3, i128Min, 1, .Pending, none⟩)], []⟩,
       [.batchStarted 1 5 100 1, batchFailedEvent envW 0 1 8], []⟩ ∧
    validateEntry envW stateFeeGtAmount 0 ⟨1⟩ = .ok ⟨1, 3, -5, 10, 4⟩ :=
  ⟨(c3_checked_sub_validation envW _ 1 [] ⟨1, 4, 3, i128Min, 1, .Pending, none⟩
      2 rfl (by decide) rfl (by decide) rfl (by decide)).1
      (by left; decide),
   by
    have h := (c3_checked_sub_validation envW stateFeeGtAmount 1 []
      ⟨1, 4, 3, 5, 10, .Pending, none⟩ 2 rfl (by decide) rfl (by decide) rfl
      (by decide)).2 (by decide)
    simpa using h⟩

/-- Decidable phase-1 validity of one batch entry against a state: the
record exists, is Pending, unmarked, unexpired, its agent is
well-formed, and the stored-record invariants 0 ≤ fee ≤ amount ≤
i128Max hold. -/
def entryOkB (env : Env) (s : ContractState) (e : BatchSettleEntry) : Bool :=
  match kvGet s.remittances e.remittance_id with
  | none => false
  | some r =>
    decide (r.status = .Pending) && !(has_settlement_hash s e.remittance_id) &&
    !(isExpired env r) && !(decide (r.agent ∈ env.invalidAddrs)) &&
    decide (0 ≤ r.fee) && decide (r.fee ≤ r.amount) &&
    decide (r.amount ≤ i128Max)

/-- The frozen fee of the record a batch entry refers to (0 for a
missing record). -/
def entryFee (s : ContractState) (e : BatchSettleEntry) : Int :=
  match kvGet s.remittances e.remittance_id with
  | none => 0
  | some r => r.fee

/-- The payout amount − fee of the record a batch entry refers to (0
for a missing record). -/
def entryPayout (s : ContractState) (e : BatchSettleEntry) : Int :=
  match kvGet s.remittances e.remittance_id with
  | none => 0
  | some r => r.amount - r.fee

theorem validateEntry_ok_of_entryOkB (env : Env) (s : ContractState)
    (i : Nat) (e : BatchSettleEntry) (hok : entryOkB env s e = true) :
    ∃ r, kvGet s.remittances e.remittance_id = some r ∧
      validateEntry env s i e =
        .ok ⟨e.remittance_id, r.agent, r.amount - r.fee, r.fee, r.sender⟩ ∧
      0 ≤ r.fee ∧ r.fee ≤ r.amount ∧ r.amount ≤ i128Max := by
  unfold entryOkB at hok
  cases hre : kvGet s.remittances e.remittance_id with
  | none => rw [hre] at hok; simp at hok
  | some r =>
    rw [hre] at hok
    simp only [Bool.and_eq_true, Bool.not_eq_true', decide_eq_true_eq] at hok
    obtain ⟨⟨⟨⟨⟨⟨hst, hm⟩, hexp⟩, hag⟩, hf0⟩, hfa⟩, ham⟩ := hok
    have hagm : r.agent ∉ env.invalidAddrs := of_decide_eq_false hag
    have hsub : checkedSubI128 r.amount r.fee = some (r.amount - r.fee) := by
      unfold checkedSubI128
      rw [if_neg]
      rintro (h1 | h2)
      · have : (i128Min : Int) ≤ 0 := by norm_num [i128Min]
        omega
      · omega
    refine ⟨r, rfl, ?_, hf0, hfa, ham⟩
    unfold validateEntry
    simp only [hre]
    rw [if_neg (by simp [hst])]
    rw [if_neg (by simp [hm])]
    rw [if_neg (by simp [hexp])]
    rw [if_neg hagm]
    simp only [hsub]

/-- The pointwise relation phase 1 establishes between an entry and the
validated settlement it produces. -/
def EntryMatches (s : ContractState) (e : BatchSettleEntry)
    (v : ValidatedSettlement) : Prop :=
  ∃ r, kvGet s.remittances e.remittance_id = some r ∧
    v.remittance_id = e.remittance_id ∧ v.fee = r.fee ∧
    v.payout_amount = r.amount - r.fee ∧ v.agent = r.agent ∧
    v.sender = r.sender ∧ 0 ≤ r.fee ∧ r.fee ≤ r.amount ∧ r.amount ≤ i128Max

theorem batchValidate_ok_of_entryOkB (env : Env) (s : ContractState) :
    ∀ (entries : List BatchSettleEntry) (i : Nat),
      (∀ e ∈ entries, entryOkB env s e = true) →
      ∃ vs, batchValidate env s entries i = .ok vs ∧
        List.Forall₂ (EntryMatches s) entries vs
  | [], i, hall => ⟨[], by simp [batchValidate], List.Forall₂.nil⟩
  | e :: rest, i, hall => by
      obtain ⟨r, hre, hve, hf0, hfa, ham⟩ :=
        validateEntry_ok_of_entryOkB env s i e (hall e (by simp))
      obtain ⟨vs2, hbv, hrel⟩ := batchValidate_ok_of_entryOkB env s rest (i + 1)
        (fun e2 he2 => hall e2 (by simp [he2]))
      refine ⟨⟨e.remittance_id, r.agent, r.amount - r.fee, r.fee, r.sender⟩ :: vs2,
        ?_, ?_⟩
      · simp only [batchValidate, hve, hbv]
      · exact List.Forall₂.cons
          ⟨r, hre, rfl, rfl, rfl, rfl, rfl, hf0, hfa, ham⟩ hrel

theorem forall₂_map_fee (s : ContractState) :
    ∀ (entries : List BatchSettleEntry) (vs : List ValidatedSettlement),
      List.Forall₂ (EntryMatches s) entries vs →
      vs.map (fun v => v.fee) = entries.map (entryFee s) ∧
      vs.map (fun v => v.payout_amount) = entries.map (entryPayout s) ∧
      (∀ v ∈ vs, 0 ≤ v.fee ∧ 0 ≤ v.payout_amount ∧
        (kvGet s.remittances v.remittance_id).isSome = true)
  | [], [], _ => by simp
  | e :: rest, v :: vs2, h => by
      obtain ⟨hev, hrel⟩ := List.forall₂_cons.mp h
      obtain ⟨hm1, hm2, hm3⟩ := forall₂_map_fee s rest vs2 hrel
      obtain ⟨r, hre, hid, hfee, hpay, hag, hsnd, hf0, hfa, ham⟩ := hev
      refine ⟨?_, ?_, ?_⟩
      · simp only [List.map_cons, hm1, hfee, entryFee, hre]
      · simp only [List.map_cons, hm2, hpay, entryPayout, hre]
      · intro v2 hv2
        rcases List.mem_cons.mp hv2 with h1 | h1
        · subst h1
          refine ⟨by rw [hfee]; exact hf0, by rw [hpay]; omega, ?_⟩
          rw [hid, hre]
          rfl
        · exact hm3 v2 h1
  | [], _ :: _, h => by cases h
  | _ :: _, [], h => by cases h

theorem batchExecute_full (env : Env) (usdc : Nat) :
    ∀ (vs : List ValidatedSettlement) (s : ContractState) (evts : List Event)
      (trs : List Transfer) (results : List BatchSettleResult) (succ : Nat)
      (total F : Int),
      s.accumulatedFees = some F → 0 ≤ F → 0 ≤ total →
      (∀ v ∈ vs, 0 ≤ v.fee ∧ 0 ≤ v.payout_amount ∧
        (kvGet s.remittances v.remittance_id).isSome = true) →
      F + (vs.map (fun v => v.fee)).sum ≤ i128Max →
      total + (vs.map (fun v => v.payout_amount)).sum ≤ i128Max →
      (batchExecute env usdc vs s evts trs results succ total).res =
        .ok (results ++ vs.map (fun v => ⟨v.remittance_id, true, v.payout_amount⟩),
             succ + vs.length,
             total + (vs.map (fun v => v.payout_amount)).sum) ∧
      (batchExecute env usdc vs s evts trs results succ total).state.accumulatedFees
        = some (F + (vs.map (fun v => v.fee)).sum) ∧
      (∀ id, (∃ r2, kvGet s.remittances id = some r2 ∧ r2.status = .Completed) →
        ∃ r2, kvGet (batchExecute env usdc vs s evts trs results succ total).state.remittances id
          = some r2 ∧ r2.status = .Completed) ∧
      (∀ v ∈ vs, ∃ r2,
        kvGet (batchExecute env usdc vs s evts trs results succ total).state.remittances v.remittance_id
          = some r2 ∧ r2.status = .Completed) ∧
      (batchExecute env usdc vs s evts trs results succ total).events =
        evts ++ vs.map (fun v => .remitCompleted 1 env.sequence env.timestamp
          v.remittance_id v.sender v.agent usdc v.payout_amount)
  | [], s, evts, trs, results, succ, total, F, hF, hF0, ht0, hall, hfb, htb => by
      refine ⟨by simp [batchExecute], by simp [batchExecute, hF], ?_, by simp, by simp [batchExecute]⟩
      intro id h2
      simpa [batchExecute] using h2
  | v :: rest, s, evts, trs, results, succ, total, F, hF, hF0, ht0, hall, hfb, htb => by
      obtain ⟨hvf0, hvp0, hvpres⟩ := hall v (by simp)
      obtain ⟨r, hre⟩ := Option.isSome_iff_exists.mp hvpres
      have hrestf0 : 0 ≤ (rest.map (fun v => v.fee)).sum :=
        List.sum_nonneg (by
          intro x hx
          obtain ⟨v2, hv2, hvx⟩ := List.mem_map.mp hx
          rw [← hvx]
          exact (hall v2 (by simp [hv2])).1)
      have hrestp0 : 0 ≤ (rest.map (fun v => v.payout_amount)).sum :=
        List.sum_nonneg (by
          intro x hx
          obtain ⟨v2, hv2, hvx⟩ := List.mem_map.mp hx
          rw [← hvx]
          exact (hall v2 (by simp [hv2])).2.1)
      have hmin0 : (i128Min : Int) ≤ 0 := by norm_num [i128Min]
      have hsumf : (List.map (fun v => v.fee) (v :: rest)).sum =
          v.fee + (rest.map (fun v => v.fee)).sum := by simp
      have hsump : (List.map (fun v => v.payout_amount) (v :: rest)).sum =
          v.payout_amount + (rest.map (fun v => v.payout_amount)).sum := by simp
      rw [hsumf] at hfb
      rw [hsump] at htb
      have hfadd : checkedAddI128 F v.fee = some (F + v.fee) := by
        unfold checkedAddI128
        rw [if_neg]
        rintro (h1 | h2) <;> omega
      have htadd : checkedAddI128 total v.payout_amount =
          some (total + v.payout_amount) := by
        unfold checkedAddI128
        rw [if_neg]
        rintro (h1 | h2) <;> omega
      have hallrest : ∀ v2 ∈ rest, 0 ≤ v2.fee ∧ 0 ≤ v2.payout_amount ∧
          (kvGet (kvSet s.remittances v.remittance_id
            { r with status := RemittanceStatus.Completed }) v2.remittance_id).isSome = true := by
        intro v2 hv2
        obtain ⟨h1, h2, h3⟩ := hall v2 (by simp [hv2])
        exact ⟨h1, h2, kvGet_kvSet_isSome_mono _ _ _ _ h3⟩
      obtain ⟨ih1, ih2, ih3, ih4, ih5⟩ := batchExecute_full env usdc rest
        { s with accumulatedFees := some (F + v.fee),
                 remittances := kvSet s.remittances v.remittance_id { r with status := RemittanceStatus.Completed },
                 markers := v.remittance_id :: s.markers }
        (evts ++ [.remitCompleted 1 env.sequence env.timestamp v.remittance_id
          v.sender v.agent usdc v.payout_amount])
        (trs ++ [⟨env.contractAddr, v.agent, v.payout_amount, .payout v.remittance_id⟩])
        (results ++ [⟨v.remittance_id, true, v.payout_amount⟩])
        (succ + 1) (total + v.payout_amount) (F + v.fee)
        rfl (by omega) (by omega) hallrest (by omega) (by omega)
      have hred : batchExecute env usdc (v :: rest) s evts trs results succ total
          = batchExecute env usdc rest
            { s with accumulatedFees := some (F + v.fee),
                     remittances := kvSet s.remittances v.remittance_id { r with status := RemittanceStatus.Completed },
                     markers := v.remittance_id :: s.markers }
            (evts ++ [.remitCompleted 1 env.sequence env.timestamp v.remittance_id
              v.sender v.agent usdc v.payout_amount])
            (trs ++ [⟨env.contractAddr, v.agent, v.payout_amount, .payout v.remittance_id⟩])
            (results ++ [⟨v.remittance_id, true, v.payout_amount⟩])
            (succ + 1) (total + v.payout_amount) := by
        simp only [batchExecute, hF, hfadd, hre, htadd]
      rw [hred, ih1, ih2, ih5]
      refine ⟨?_, ?_, ?_, ?_, ?_⟩
      · simp [add_assoc]
        omega
      · simp [add_assoc]
      · intro id h2
        apply ih3
        obtain ⟨r2, hr2, hr2c⟩ := h2
        by_cases hid : v.remittance_id = id
        · subst hid
          exact ⟨{ r with status := RemittanceStatus.Completed },
            kvGet_kvSet_self _ _ _, rfl⟩
        · rw [kvGet_kvSet_ne _ _ _ _ hid]
          exact ⟨r2, hr2, hr2c⟩
      · intro v2 hv2
        rcases List.mem_cons.mp hv2 with h1 | h1
        · subst h1
          apply ih3
          exact ⟨{ r with status := RemittanceStatus.Completed },
            kvGet_kvSet_self _ _ _, rfl⟩
        · exact ih4 v2 h1
      · simp

theorem forall₂_mem_left {α β : Type} {R : α → β → Prop} :
    ∀ {l1 : List α} {l2 : List β}, List.Forall₂ R l1 l2 →
      ∀ a ∈ l1, ∃ b, b ∈ l2 ∧ R a b
  | [], [], _, a, ha => by simp at ha
  | x :: xs, y :: ys, h, a, ha => by
      obtain ⟨hxy, hrest⟩ := List.forall₂_cons.mp h
      rcases List.mem_cons.mp ha with h1 | h1
      · subst h1
        exact ⟨y, by simp, hxy⟩
      · obtain ⟨b, hb, hr⟩ := forall₂_mem_left hrest a h1
        exact ⟨b, by simp [hb], hr⟩

/-- C8: a non-empty batch of distinct, all-valid entries settles
completely — one success result per entry in input order carrying the
entry's payout, the fee pool grows by exactly the sum of the frozen
fees, every referenced remittance ends Completed with its settlement
marker set, and the event stream is the started event, the per-entry
completion events, and one batch-completed event with total_count =
success_count = the batch size and the summed payout. -/
theorem c8_batch_settle_all_valid (env : Env) (s : ContractState)
    (entries : List BatchSettleEntry) (usdc : Nat) (F : Int)
    (hne : entries ≠ [])
    (hnd : (entries.map (fun e => e.remittance_id)).Nodup)
    (hu : s.usdcToken = some usdc) (hF : s.accumulatedFees = some F)
    (hF0 : 0 ≤ F)
    (hok : ∀ e ∈ entries, entryOkB env s e = true)
    (hfees : F + (entries.map (entryFee s)).sum ≤ i128Max)
    (hpay : (entries.map (entryPayout s)).sum ≤ i128Max) :
    ∃ results,
      (batch_settle env s entries).res = .ok results ∧
      results.length = entries.length ∧
      List.Forall₂ (fun e res => res.remittance_id = e.remittance_id ∧
        res.success = true ∧ res.payout_amount = entryPayout s e)
        entries results ∧
      (batch_settle env s entries).state.accumulatedFees =
        some (F + (entries.map (entryFee s)).sum) ∧
      (∀ e ∈ entries,
        (∃ r2, kvGet (batch_settle env s entries).state.remittances
            e.remittance_id = some r2 ∧ r2.status = .Completed) ∧
        e.remittance_id ∈ (batch_settle env s entries).state.markers) ∧
      ∃ mid, (batch_settle env s entries).events =
        .batchStarted 1 env.sequence env.timestamp entries.length ::
          (mid ++ [.batchCompleted 1 env.sequence env.timestamp entries.length
            entries.length ((entries.map (entryPayout s)).sum)]) ∧
        ∀ ev ∈ mid, isRemitCompletedEvent ev = true := by
  obtain ⟨vs, hbv, hrel⟩ := batchValidate_ok_of_entryOkB env s entries 0 hok
  obtain ⟨hmf, hmp, hvall⟩ := forall₂_map_fee s entries vs hrel
  have hlen : vs.length = entries.length := hrel.length_eq.symm
  obtain ⟨hx1, hx2, hx3, hx4, hx5⟩ := batchExecute_full env usdc vs s
    [.batchStarted 1 env.sequence env.timestamp entries.length] [] [] 0 0 F
    hF hF0 le_rfl hvall (by rw [hmf]; exact hfees)
    (by rw [hmp]; simpa using hpay)
  have heq : batch_settle env s entries =
      ⟨.ok ([] ++ vs.map (fun v => ⟨v.remittance_id, true, v.payout_amount⟩)),
       (batchExecute env usdc vs s
         [.batchStarted 1 env.sequence env.timestamp entries.length]
         [] [] 0 0).state,
       (batchExecute env usdc vs s
         [.batchStarted 1 env.sequence env.timestamp entries.length]
         [] [] 0 0).events ++
         [.batchCompleted 1 env.sequence env.timestamp entries.length
           (0 + vs.length) (0 + (vs.map (fun v => v.payout_amount)).sum)],
       (batchExecute env usdc vs s
         [.batchStarted 1 env.sequence env.timestamp entries.length]
         [] [] 0 0).transfers⟩ := by
    unfold batch_settle
    rw [if_neg (by simpa [List.isEmpty_iff] using hne)]
    simp only [hu, hbv, hx1]
  obtain ⟨okinv1, okinv2, okinv3, okinv4, okinv5, okinv6⟩ :=
    batchExecute_ok_inv env usdc vs s
      [.batchStarted 1 env.sequence env.timestamp entries.length]
      [] [] 0 0 _ hx1
  refine ⟨vs.map (fun v => ⟨v.remittance_id, true, v.payout_amount⟩),
    by rw [heq]; simp, by simp [hlen], ?_, ?_, ?_, ?_⟩
  · rw [List.forall₂_map_right_iff]
    apply List.Forall₂.imp ?_ hrel
    intro e v hm
    obtain ⟨r, hre, hid, hfee, hpayv, hag, hsnd, hf0, hfa, ham⟩ := hm
    exact ⟨hid, rfl, by rw [hpayv, entryPayout, hre]⟩
  · rw [heq]
    rw [hx2, hmf]
  · intro e he
    obtain ⟨v, hv, hm⟩ := forall₂_mem_left hrel e he
    obtain ⟨r, hre, hid, hfee, hpayv, hag, hsnd, hf0, hfa, ham⟩ := hm
    constructor
    · rw [heq]
      obtain ⟨r2, hr2, hr2c⟩ := hx4 v hv
      exact ⟨r2, by rw [← hid]; exact hr2, hr2c⟩
    · rw [heq]
      have : e.remittance_id ∈ vs.map (fun v => v.remittance_id) :=
        List.mem_map.mpr ⟨v, hv, hid⟩
      rw [okinv2]
      simp [this]
  · refine ⟨vs.map (fun v => .remitCompleted 1 env.sequence env.timestamp
      v.remittance_id v.sender v.agent usdc v.payout_amount), ?_, ?_⟩
    · rw [heq]
      rw [hx5]
      simp [hlen, hmp]
    · intro ev hev
      obtain ⟨v, hv, hveq⟩ := List.mem_map.mp hev
      rw [← hveq]
      rfl

/-- An initialized state with three pending remittances of 1000, frozen
fee 25 each, and an empty fee pool. -/
def stateW3 : ContractState :=
  ⟨some 1, some 2, some 250, some 3, some 0, [(3, true)],
   [(1, ⟨1, 4, 3, 1000, 25, .Pending, none⟩),
    (2, ⟨2, 4, 3, 1000, 25, .Pending, none⟩),
    (3, ⟨3, 4, 3, 1000, 25, .Pending, none⟩)], []⟩

/-- Witness for C8: settling the three all-valid entries 1, 2, 3 yields
three success results, a fee pool of 75 = 25·3, all three records
Completed and marked, and a batch-completed event with counts 3 / 3 and
total payout 2925. -/
theorem c8_batch_settle_all_valid_witness :
    ∃ results,
      (batch_settle envW stateW3 [⟨1⟩, ⟨2⟩, ⟨3⟩]).res = .ok results ∧
      results.length = 3 ∧
      List.Forall₂ (fun (e : BatchSettleEntry) (res : BatchSettleResult) =>
        res.remittance_id = e.remittance_id ∧ res.success = true ∧
        res.payout_amount = entryPayout stateW3 e) [⟨1⟩, ⟨2⟩, ⟨3⟩] results ∧
      (batch_settle envW stateW3 [⟨1⟩, ⟨2⟩, ⟨3⟩]).state.accumulatedFees =
        some 75 ∧
      (∀ e ∈ ([⟨1⟩, ⟨2⟩, ⟨3⟩] : List BatchSettleEntry),
        (∃ r2, kvGet (batch_settle envW stateW3 [⟨1⟩, ⟨2⟩, ⟨3⟩]).state.remittances
            e.remittance_id = some r2 ∧ r2.status = .Completed) ∧
        e.remittance_id ∈ (batch_settle envW stateW3 [⟨1⟩, ⟨2⟩, ⟨3⟩]).state.markers) ∧
      ∃ mid, (batch_settle envW stateW3 [⟨1⟩, ⟨2⟩, ⟨3⟩]).events =
        .batchStarted 1 5 100 3 ::
          (mid ++ [.batchCompleted 1 5 100 3 3 2925]) ∧
        ∀ ev ∈ mid, isRemitCompletedEvent ev = true :=
  c8_batch_settle_all_valid envW stateW3 [⟨1⟩, ⟨2⟩, ⟨3⟩] 2 0 (by decide)
    (by decide) rfl rfl (by decide) (by decide) (by decide) (by decide)

/-! ### Reachable-state well-formedness and the lifecycle freeze -/

theorem kvGet_mem {α : Type} :
    ∀ (l : List (Nat × α)) (k : Nat) (v : α),
      kvGet l k = some v → (k, v) ∈ l
  | [], k, v, h => by simp [kvGet] at h
  | (k', v') :: t, k, v, h => by
      by_cases hk : k' = k
      · subst hk
        simp [kvGet] at h
        simp [h]
      · simp only [kvGet, if_neg hk] at h
        simp [kvGet_mem t k v h]

theorem kvSet_mem {α : Type} :
    ∀ (l : List (Nat × α)) (k : Nat) (v : α) (p : Nat × α),
      p ∈ kvSet l k v → p = (k, v) ∨ p ∈ l
  | [], k, v, p, h => by simpa [kvSet] using h
  | (k', v') :: t, k, v, p, h => by
      by_cases hk : k' = k
      · subst hk
        simp only [kvSet, if_pos rfl] at h
        rcases List.mem_cons.mp h with h1 | h1
        · exact Or.inl h1
        · exact Or.inr (by simp [h1])
      · simp only [kvSet, if_neg hk] at h
        rcases List.mem_cons.mp h with h1 | h1
        · exact Or.inr (by simp [h1])
        · rcases kvSet_mem t k v p h1 with h2 | h2
          · exact Or.inl h2
          · exact Or.inr (by simp [h2])

/-- Keys of the remittance store are bounded by the counter key; before
any write of the counter the store is empty. -/
def counterBound : Option Nat → List (Nat × Remittance) → Prop
  | none, l => l = []
  | some c, l => ∀ p ∈ l, p.1 ≤ c

instance counterBound.decidable :
    ∀ (o : Option Nat) (l : List (Nat × Remittance)),
      Decidable (counterBound o l)
  | none, l => by unfold counterBound; infer_instance
  | some c, l => by unfold counterBound; infer_instance

/-- Well-formedness of reachable states: every stored remittance key is
bounded by the counter, and before the bootstrap (no admin) the counter
key is unwritten. -/
def WF (s : ContractState) : Prop :=
  counterBound s.counter s.remittances ∧ (s.admin = none → s.counter = none)

instance (s : ContractState) : Decidable (WF s) := instDecidableAnd

theorem WF.key_le (s : ContractState) (hwf : WF s) (id : Nat) (r : Remittance)
    (h : kvGet s.remittances id = some r) :
    ∃ c, s.counter = some c ∧ id ≤ c := by
  obtain ⟨h1, h2⟩ := hwf
  cases hc : s.counter with
  | none =>
    rw [hc] at h1
    unfold counterBound at h1
    rw [h1] at h
    simp [kvGet] at h
  | some c =>
    rw [hc] at h1
    exact ⟨c, rfl, h1 (id, r) (kvGet_mem _ _ _ h)⟩

theorem WF.remittances_ne_nil (s : ContractState) (hwf : WF s) (id : Nat)
    (r : Remittance) (h : kvGet s.remittances id = some r) :
    s.admin ≠ none ∧ ∃ c, s.counter = some c := by
  obtain ⟨c, hc, _⟩ := hwf.key_le s id r h
  refine ⟨?_, c, hc⟩
  intro hadm
  rw [hwf.2 hadm] at hc
  cases hc

theorem batch_settle_ok_inv (env : Env) (s : ContractState)
    (entries : List BatchSettleEntry) (results : List BatchSettleResult)
    (h : (batch_settle env s entries).res = .ok results) :
    entries ≠ [] ∧
    ∃ usdc vs out, s.usdcToken = some usdc ∧
      batchValidate env s entries 0 = .ok vs ∧
      (batchExecute env usdc vs s
        [.batchStarted 1 env.sequence env.timestamp entries.length]
        [] [] 0 0).res = .ok out ∧
      (batch_settle env s entries).state =
        (batchExecute env usdc vs s
          [.batchStarted 1 env.sequence env.timestamp entries.length]
          [] [] 0 0).state ∧
      (batch_settle env s entries).transfers =
        (batchExecute env usdc vs s
          [.batchStarted 1 env.sequence env.timestamp entries.length]
          [] [] 0 0).transfers := by
  unfold batch_settle at h ⊢
  by_cases hne : entries.isEmpty
  · simp [hne] at h
  · rw [if_neg hne] at h ⊢
    refine ⟨by simpa [List.isEmpty_iff] using hne, ?_⟩
    cases hu : s.usdcToken with
    | none => simp only [hu] at h; simp at h
    | some usdc =>
      simp only [hu] at h ⊢
      cases hv : batchValidate env s entries 0 with
      | error ev => simp only [hv] at h; simp at h
      | ok vs =>
        simp only [hv] at h ⊢
        cases her : (batchExecute env usdc vs s
            [.batchStarted 1 env.sequence env.timestamp entries.length]
            [] [] 0 0).res with
        | error e2 => simp only [her] at h; simp at h
        | ok out =>
          obtain ⟨rs2, succ, total⟩ := out
          simp only [her] at h ⊢
          exact ⟨usdc, vs, (rs2, succ, total), rfl, rfl, her, rfl, rfl⟩

theorem batchExecute_ok_keys (env : Env) (usdc : Nat) :
    ∀ (vs : List ValidatedSettlement) (s : ContractState) (evts : List Event)
      (trs : List Transfer) (results : List BatchSettleResult) (succ : Nat)
      (total : Int) (out : List BatchSettleResult × Nat × Int),
      (batchExecute env usdc vs s evts trs results succ total).res = .ok out →
      ∀ p ∈ (batchExecute env usdc vs s evts trs results succ total).state.remittances,
        p ∈ s.remittances ∨ p.1 ∈ vs.map (fun v => v.remittance_id)
  | [], s, evts, trs, results, succ, total, out, h => by
      intro p hp
      exact Or.inl (by simpa [batchExecute] using hp)
  | v :: rest, s, evts, trs, results, succ, total, out, h => by
      simp only [batchExecute] at h ⊢
      cases hf : s.accumulatedFees with
      | none => simp only [hf] at h; simp at h
      | some fees =>
        simp only [hf] at h ⊢
        cases hadd : checkedAddI128 fees v.fee with
        | none => simp only [hadd] at h; simp at h
        | some newFees =>
          simp only [hadd] at h ⊢
          cases hre : kvGet s.remittances v.remittance_id with
          | none => simp only [hre] at h; simp at h
          | some r =>
            simp only [hre] at h ⊢
            cases htot : checkedAddI128 total v.payout_amount with
            | none => simp only [htot] at h; simp at h
            | some total2 =>
              simp only [htot] at h ⊢
              intro p hp
              rcases batchExecute_ok_keys env usdc rest _ _ _ _ _ _ out h p hp
                with h1 | h1
              · rcases kvSet_mem _ _ _ p h1 with h2 | h2
                · subst h2
                  exact Or.inr (by simp)
                · exact Or.inl h2
              · exact Or.inr (by simp [h1])

theorem except_map_ok_inv {ε α : Type} (f : α → RetVal) (x : Except ε α)
    (v : RetVal) (h : x.map f = .ok v) : ∃ a, x = .ok a ∧ v = f a := by
  cases x with
  | error e => simp [Except.map] at h
  | ok a => exact ⟨a, rfl, by simpa [Except.map] using h.symm⟩

/-- One invocation preserves well-formedness and never rewrites a stored
record whose status already left Pending. -/
theorem invoke_preserves_terminal (env : Env) (op : Op) (s : ContractState)
    (hwf : WF s) :
    WF (invoke env op s).state ∧
    (∀ id r, kvGet s.remittances id = some r → r.status ≠ .Pending →
      kvGet (invoke env op s).state.remittances id = some r) := by
  unfold invoke
  dsimp only
  cases hr : (step env op s).res with
  | error e =>
    simp only [hr]
    exact ⟨hwf, fun id r h _ => h⟩
  | ok v =>
    simp only [hr]
    cases op with
    | bootstrap a u b =>
      obtain ⟨⟨⟩, hres, -⟩ := except_map_ok_inv _ _ _ hr
      obtain ⟨hadm, hb, heq⟩ := bootstrap_ok_inv env s a u b hres
      have hctr : s.counter = none := hwf.2 hadm
      have hrem : s.remittances = [] := by
        have h1 := hwf.1
        rw [hctr] at h1
        exact h1
      simp only [step, Out.retMap_state, heq]
      constructor
      · constructor
        · show counterBound (some 0) s.remittances
          rw [hrem]
          intro p hp
          simp at hp
        · intro hadm2
          simp at hadm2
      · intro id r h hterm
        rw [hrem] at h
        simp [kvGet] at h
    | register_agent a =>
      obtain ⟨⟨⟩, hres, -⟩ := except_map_ok_inv _ _ _ hr
      obtain ⟨admin, hadm, heq⟩ := register_agent_ok_inv env s a hres
      simp only [step, Out.retMap_state, heq]
      exact ⟨hwf, fun id r h _ => h⟩
    | remove_agent a =>
      obtain ⟨⟨⟩, hres, -⟩ := except_map_ok_inv _ _ _ hr
      obtain ⟨admin, hadm, heq⟩ := remove_agent_ok_inv env s a hres
      simp only [step, Out.retMap_state, heq]
      exact ⟨hwf, fun id r h _ => h⟩
    | update_fee b =>
      obtain ⟨⟨⟩, hres, -⟩ := except_map_ok_inv _ _ _ hr
      obtain ⟨admin, hadm, hb, heq⟩ := update_fee_ok_inv env s b hres
      simp only [step, Out.retMap_state, heq]
      exact ⟨hwf, fun id r h _ => h⟩
    | withdraw_fees a =>
      obtain ⟨⟨⟩, hres, -⟩ := except_map_ok_inv _ _ _ hr
      obtain ⟨admin, fees, usdc, hadm, hto, hfees, hpos, husdc, heq⟩ :=
        withdraw_fees_ok_inv env s a hres
      simp only [step, Out.retMap_state, heq]
      exact ⟨hwf, fun id r h _ => h⟩
    | create_remittance sndr agt amt exp =>
      obtain ⟨rid, hres, -⟩ := except_map_ok_inv _ _ _ hr
      obtain ⟨c, fee, usdc, hctr, hrid, husdc, hle, heq⟩ :=
        create_remittance_ok_inv env s sndr agt amt exp rid hres
      subst hrid
      simp only [step, Out.retMap_state, heq]
      have hbound : ∀ p ∈ s.remittances, p.1 ≤ c := by
        have h1 := hwf.1
        rw [hctr] at h1
        exact h1
      constructor
      · constructor
        · show counterBound (some (c + 1)) _
          intro p hp
          rcases kvSet_mem _ _ _ p hp with h1 | h1
          · subst h1
            exact le_refl _
          · exact Nat.le_succ_of_le (hbound p h1)
        · intro hadm2
          exfalso
          rw [hwf.2 hadm2] at hctr
          cases hctr
      · intro id r h hterm
        have hidle : id ≤ c := by
          obtain ⟨c2, hc2, hle2⟩ := hwf.key_le s id r h
          rw [hctr] at hc2
          injection hc2 with hc2
          omega
        rw [kvGet_kvSet_ne _ _ _ _ (by omega)]
        exact h
    | confirm_payout rid =>
      obtain ⟨⟨⟩, hres, -⟩ := except_map_ok_inv _ _ _ hr
      obtain ⟨r0, payout, usdc, fees, newFees, hre, hst, hm, hexp, hag, hsub,
        husdc, hfees, hadd, heq⟩ := confirm_payout_ok_inv env s rid hres
      simp only [step, Out.retMap_state, heq]
      obtain ⟨c, hc, hridle⟩ := hwf.key_le s rid r0 hre
      have hbound : ∀ p ∈ s.remittances, p.1 ≤ c := by
        have h1 := hwf.1
        rw [hc] at h1
        exact h1
      constructor
      · constructor
        · show counterBound s.counter _
          rw [hc]
          intro p hp
          rcases kvSet_mem _ _ _ p hp with h1 | h1
          · subst h1
            exact hridle
          · exact hbound p h1
        · intro hadm2
          exfalso
          rw [hwf.2 hadm2] at hc
          cases hc
      · intro id r h hterm
        by_cases hid : rid = id
        · subst hid
          rw [hre] at h
          injection h with h
          rw [← h] at hterm
          exact absurd hst hterm
        · rw [kvGet_kvSet_ne _ _ _ _ hid]
          exact h
    | cancel_remittance rid =>
      obtain ⟨⟨⟩, hres, -⟩ := except_map_ok_inv _ _ _ hr
      obtain ⟨r0, usdc, hre, hst, husdc, heq⟩ :=
        cancel_remittance_ok_inv env s rid hres
      simp only [step, Out.retMap_state, heq]
      obtain ⟨c, hc, hridle⟩ := hwf.key_le s rid r0 hre
      have hbound : ∀ p ∈ s.remittances, p.1 ≤ c := by
        have h1 := hwf.1
        rw [hc] at h1
        exact h1
      constructor
      · constructor
        · show counterBound s.counter _
          rw [hc]
          intro p hp
          rcases kvSet_mem _ _ _ p hp with h1 | h1
          · subst h1
            exact hridle
          · exact hbound p h1
        · intro hadm2
          exfalso
          rw [hwf.2 hadm2] at hc
          cases hc
      · intro id r h hterm
        by_cases hid : rid = id
        · subst hid
          rw [hre] at h
          injection h with h
          rw [← h] at hterm
          exact absurd hst hterm
        · rw [kvGet_kvSet_ne _ _ _ _ hid]
          exact h
    | batch_settle entries =>
      obtain ⟨results, hres, -⟩ := except_map_ok_inv _ _ _ hr
      obtain ⟨hne, usdc, vs, out, husdc, hbv, hexec, hstate, htrs⟩ :=
        batch_settle_ok_inv env s entries results hres
      obtain ⟨hmap, hmem⟩ := batchValidate_ok_inv env s entries 0 vs hbv
      obtain ⟨okinv1, okinv2, okinv3, okinv4, okinv5, okinv6⟩ :=
        batchExecute_ok_inv env usdc vs s
          [.batchStarted 1 env.sequence env.timestamp entries.length]
          [] [] 0 0 out hexec
      have hvs_ne : vs ≠ [] := by
        intro hc
        subst hc
        rw [List.map_nil] at hmap
        cases entries with
        | nil => exact hne rfl
        | cons e rest => simp at hmap
      have hsomerec : ∃ id0 r0, kvGet s.remittances id0 = some r0 := by
        cases vs with
        | nil => exact absurd rfl hvs_ne
        | cons v vrest =>
          obtain ⟨r0, hr0, -⟩ := hmem v (by simp)
          exact ⟨v.remittance_id, r0, hr0⟩
      obtain ⟨id0, r0, hr0⟩ := hsomerec
      obtain ⟨c, hc, -⟩ := hwf.key_le s id0 r0 hr0
      have hbound : ∀ p ∈ s.remittances, p.1 ≤ c := by
        have h1 := hwf.1
        rw [hc] at h1
        exact h1
      have hkeys := batchExecute_ok_keys env usdc vs s
        [.batchStarted 1 env.sequence env.timestamp entries.length]
        [] [] 0 0 out hexec
      simp only [step, Out.retMap_state, hstate]
      constructor
      · constructor
        · show counterBound _ _
          rw [okinv3, hc]
          intro p hp
          rcases hkeys p hp with h1 | h1
          · exact hbound p h1
          · obtain ⟨v2, hv2, hv2id⟩ := List.mem_map.mp h1
            obtain ⟨r2, hr2, -⟩ := hmem v2 hv2
            rw [← hv2id]
            exact hbound (v2.remittance_id, r2) (kvGet_mem _ _ _ hr2)
        · intro hadm2
          exfalso
          rw [okinv4] at hadm2
          rw [hwf.2 hadm2] at hc
          cases hc
      · intro id r h hterm
        have hnotin : id ∉ vs.map (fun v => v.remittance_id) := by
          intro hin
          obtain ⟨v2, hv2, hv2id⟩ := List.mem_map.mp hin
          obtain ⟨r2, hr2, hr2st, -⟩ := hmem v2 hv2
          rw [hv2id, h] at hr2
          injection hr2 with hr2
          rw [hr2] at hterm
          exact absurd hr2st hterm
        rw [okinv5 id hnotin]
        exact h

theorem runTrace_preserves_terminal :
    ∀ (trace : List (Env × Op)) (s : ContractState) (log : List Transfer)
      (id : Nat) (r : Remittance),
      WF s → kvGet s.remittances id = some r → r.status ≠ .Pending →
      kvGet (runTrace trace s log).1.remittances id = some r
  | [], s, log, id, r, hwf, h, hterm => by simpa [runTrace] using h
  | (env, op) :: rest, s, log, id, r, hwf, h, hterm => by
      simp only [runTrace]
      obtain ⟨hwf2, hpres⟩ := invoke_preserves_terminal env op s hwf
      exact runTrace_preserves_terminal rest _ _ id r hwf2
        (hpres id r h hterm) hterm

/-- C5: the lifecycle admits only Pending → Completed and
Pending → Cancelled — starting from any well-formed state, once a
stored record's status is Completed or Cancelled no sequence of
invocations ever changes that record again; and a repeat confirm_payout
on a Completed remittance fails InvalidStatus and executes no
transfer. -/
theorem c5_terminal_status_frozen :
    (∀ (trace : List (Env × Op)) (s : ContractState) (id : Nat)
      (r : Remittance), WF s → kvGet s.remittances id = some r →
      r.status ≠ .Pending →
      kvGet (runTrace trace s []).1.remittances id = some r) ∧
    (∀ (env : Env) (s : ContractState) (rid : Nat) (r : Remittance),
      kvGet s.remittances rid = some r → r.status = .Completed →
      (confirm_payout env s rid).res = .error .InvalidStatus ∧
      (confirm_payout env s rid).transfers = []) := by
  constructor
  · intro trace s id r hwf h hterm
    exact runTrace_preserves_terminal trace s [] id r hwf h hterm
  · intro env s rid r hre hst
    unfold confirm_payout
    simp only [hre]
    rw [if_pos (by simp [hst])]
    exact ⟨rfl, rfl⟩

/-- A state holding remittance 1 already Completed (marker set). -/
def stateDone : ContractState :=
  ⟨some 1, some 2, some 250, some 1, some 0, [(3, true)],
   [(1, ⟨1, 4, 3, 1000, 25, .Completed, none⟩)], [1]⟩

/-- Witness for C5: after a confirm, a cancel, a batch over it and a
fresh create, the Completed record 1 is byte-for-byte unchanged; and a
direct repeat confirm fails InvalidStatus with no transfer. -/
theorem c5_terminal_status_frozen_witness :
    kvGet (runTrace
      [(envW, .confirm_payout 1), (envW, .cancel_remittance 1),
       (envW, .batch_settle [⟨1⟩]), (envW, .create_remittance 4 3 500 none)]
      stateDone []).1.remittances 1 =
      some ⟨1, 4, 3, 1000, 25, .Completed, none⟩ ∧
    ((confirm_payout envW stateDone 1).res = .error .InvalidStatus ∧
      (confirm_payout envW stateDone 1).transfers = []) :=
  ⟨c5_terminal_status_frozen.1
     [(envW, .confirm_payout 1), (envW, .cancel_remittance 1),
      (envW, .batch_settle [⟨1⟩]), (envW, .create_remittance 4 3 500 none)]
     stateDone 1 ⟨1, 4, 3, 1000, 25, .Completed, none⟩ (by decide) rfl
     (by decide),
   c5_terminal_status_frozen.2 envW stateDone 1
     ⟨1, 4, 3, 1000, 25, .Completed, none⟩ rfl rfl⟩

/-! ### At-most-one payout per remittance id -/

/-- Batches with duplicate remittance ids are what the amended C1 must
exclude; every other operation is unconstrained. -/
def opBatchNodup : Op → Bool
  | .batch_settle es => decide ((es.map (fun e => e.remittance_id)).Nodup)
  | _ => true

theorem payoutsFor_map_payoutTransfer (env : Env) (id : Nat) :
    ∀ vs : List ValidatedSettlement,
      payoutsFor id (vs.map (payoutTransfer env)) =
        (vs.map (fun v => v.remittance_id)).count id
  | [] => rfl
  | v :: rest => by
      simp only [List.map_cons, payoutsFor, List.countP_cons, List.count_cons]
      rw [show (List.countP (fun t => decide (t.tag = TransferTag.payout id))
        (List.map (payoutTransfer env) rest)) =
        (rest.map (fun v => v.remittance_id)).count id from
        payoutsFor_map_payoutTransfer env id rest]
      by_cases hid : v.remittance_id = id
      · simp [payoutTransfer, hid]
      · simp [payoutTransfer, hid]

theorem invoke_payout_step (env : Env) (op : Op) (s : ContractState)
    (hnd : opBatchNodup op = true) (id : Nat) :
    payoutsFor id (invoke env op s).transfers ≤ 1 ∧
    (1 ≤ payoutsFor id (invoke env op s).transfers →
      id ∉ s.markers ∧ id ∈ (invoke env op s).state.markers) ∧
    (id ∈ s.markers → id ∈ (invoke env op s).state.markers) := by
  unfold invoke
  dsimp only
  cases hr : (step env op s).res with
  | error e =>
    simp only [hr]
    exact ⟨by simp [payoutsFor], by simp [payoutsFor], fun h => h⟩
  | ok v =>
    simp only [hr]
    cases op with
    | bootstrap a u b =>
      obtain ⟨⟨⟩, hres, -⟩ := except_map_ok_inv _ _ _ hr
      obtain ⟨-, -, heq⟩ := bootstrap_ok_inv env s a u b hres
      simp only [step, Out.retMap_state, Out.retMap, heq]
      exact ⟨by simp [payoutsFor], by simp [payoutsFor], fun h => h⟩
    | register_agent a =>
      obtain ⟨⟨⟩, hres, -⟩ := except_map_ok_inv _ _ _ hr
      obtain ⟨admin, -, heq⟩ := register_agent_ok_inv env s a hres
      simp only [step, Out.retMap, heq]
      exact ⟨by simp [payoutsFor], by simp [payoutsFor], fun h => h⟩
    | remove_agent a =>
      obtain ⟨⟨⟩, hres, -⟩ := except_map_ok_inv _ _ _ hr
      obtain ⟨admin, -, heq⟩ := remove_agent_ok_inv env s a hres
      simp only [step, Out.retMap, heq]
      exact ⟨by simp [payoutsFor], by simp [payoutsFor], fun h => h⟩
    | update_fee b =>
      obtain ⟨⟨⟩, hres, -⟩ := except_map_ok_inv _ _ _ hr
      obtain ⟨admin, -, -, heq⟩ := update_fee_ok_inv env s b hres
      simp only [step, Out.retMap, heq]
      exact ⟨by simp [payoutsFor], by simp [payoutsFor], fun h => h⟩
    | withdraw_fees a =>
      obtain ⟨⟨⟩, hres, -⟩ := except_map_ok_inv _ _ _ hr
      obtain ⟨admin, fees, usdc, -, -, -, -, -, heq⟩ :=
        withdraw_fees_ok_inv env s a hres
      simp only [step, Out.retMap, heq]
      exact ⟨by simp [payoutsFor], by simp [payoutsFor], fun h => h⟩
    | create_remittance sndr agt amt exp =>
      obtain ⟨rid, hres, -⟩ := except_map_ok_inv _ _ _ hr
      obtain ⟨c, fee, usdc, -, -, -, -, heq⟩ :=
        create_remittance_ok_inv env s sndr agt amt exp rid hres
      simp only [step, Out.retMap, heq]
      exact ⟨by simp [payoutsFor], by simp [payoutsFor], fun h => h⟩
    | cancel_remittance rid =>
      obtain ⟨⟨⟩, hres, -⟩ := except_map_ok_inv _ _ _ hr
      obtain ⟨r0, usdc, -, -, -, heq⟩ :=
        cancel_remittance_ok_inv env s rid hres
      simp only [step, Out.retMap, heq]
      exact ⟨by simp [payoutsFor], by simp [payoutsFor], fun h => h⟩
    | confirm_payout rid =>
      obtain ⟨⟨⟩, hres, -⟩ := except_map_ok_inv _ _ _ hr
      obtain ⟨r0, payout, usdc, fees, newFees, hre, hst, hm, -, -, -, -, -, -,
        heq⟩ := confirm_payout_ok_inv env s rid hres
      simp only [step, Out.retMap, heq]
      by_cases hid : rid = id
      · subst hid
        refine ⟨by simp [payoutsFor], ?_, fun h => by simp [h]⟩
        intro h1
        exact ⟨hm, by simp⟩
      · refine ⟨?_, ?_, fun h => by simp [h]⟩
        · simp [payoutsFor, hid]
        · intro h1
          exfalso
          simp [payoutsFor, hid] at h1
    | batch_settle entries =>
      obtain ⟨results, hres, -⟩ := except_map_ok_inv _ _ _ hr
      obtain ⟨hne, usdc, vs, out, husdc, hbv, hexec, hstate, htrs⟩ :=
        batch_settle_ok_inv env s entries results hres
      obtain ⟨hmap, hmem⟩ := batchValidate_ok_inv env s entries 0 vs hbv
      obtain ⟨okinv1, okinv2, okinv3, okinv4, okinv5, okinv6⟩ :=
        batchExecute_ok_inv env usdc vs s
          [.batchStarted 1 env.sequence env.timestamp entries.length]
          [] [] 0 0 out hexec
      have hnodup : (vs.map (fun v => v.remittance_id)).Nodup := by
        rw [hmap]
        exact of_decide_eq_true hnd
      simp only [step, Out.retMap, hstate, htrs, okinv1, okinv2]
      rw [List.nil_append]
      rw [payoutsFor_map_payoutTransfer]
      refine ⟨List.nodup_iff_count_le_one.mp hnodup id, ?_, ?_⟩
      · intro h1
        have hidmem : id ∈ vs.map (fun v => v.remittance_id) :=
          List.count_pos_iff_mem.mp (by omega)
        obtain ⟨v2, hv2, hv2id⟩ := List.mem_map.mp hidmem
        obtain ⟨r2, -, -, hm2, -⟩ := hmem v2 hv2
        rw [hv2id] at hm2
        exact ⟨hm2, by simp [hidmem]⟩
      · intro h
        simp [h]

theorem runTrace_payout_bound :
    ∀ (trace : List (Env × Op)) (s : ContractState) (log : List Transfer),
      (∀ p ∈ trace, opBatchNodup p.2 = true) →
      (∀ id, payoutsFor id log ≤ 1 ∧
        (1 ≤ payoutsFor id log → id ∈ s.markers)) →
      ∀ id, payoutsFor id (runTrace trace s log).2 ≤ 1 ∧
        (1 ≤ payoutsFor id (runTrace trace s log).2 →
          id ∈ (runTrace trace s log).1.markers)
  | [], s, log, hnd, hinv, id => by simpa [runTrace] using hinv id
  | (env, op) :: rest, s, log, hnd, hinv, id => by
      simp only [runTrace]
      apply runTrace_payout_bound rest _ _
        (fun p hp => hnd p (by simp [hp]))
      intro id2
      obtain ⟨hstep1, hstep2, hstep3⟩ :=
        invoke_payout_step env op s (hnd (env, op) (by simp)) id2
      obtain ⟨hlog1, hlog2⟩ := hinv id2
      rw [payoutsFor_append]
      by_cases hzero : payoutsFor id2 (invoke env op s).transfers = 0
      · rw [hzero]
        constructor
        · omega
        · intro h1
          exact hstep3 (hlog2 (by omega))
      · obtain ⟨hnm, hm⟩ := hstep2 (by omega)
        have hlz : payoutsFor id2 log = 0 := by
          by_contra hc
          exact hnm (hlog2 (by omega))
        constructor
        · omega
        · intro _
          exact hm

/-- C1 (amended): over every sequence of invocations from any starting
state, provided no single batch_settle call lists the same remittance
id twice, at most one payout transfer is ever committed for a given
remittance id — the settlement marker blocks any later re-entry.  (The
original claim, which also allowed duplicate ids inside one batch, is
refuted by the counterexample: phase 1 sets no markers, so both copies
of a duplicated entry validate and phase 2 pays twice.) -/
theorem c1_at_most_one_payout (trace : List (Env × Op)) (s : ContractState)
    (id : Nat) (hnd : ∀ p ∈ trace, opBatchNodup p.2 = true) :
    payoutsFor id (runTrace trace s []).2 ≤ 1 :=
  (runTrace_payout_bound trace s [] hnd
    (fun id2 => ⟨by simp [payoutsFor], by simp [payoutsFor]⟩) id).1

/-- Counterexample to C1 as stated: a single batch_settle whose entry
list contains remittance 1 twice validates both copies (no marker is
set during phase 1) and commits two payout transfers of 975 for the
same id — the call succeeds. -/
theorem c1_counterexample :
    (invoke envW (.batch_settle [⟨1⟩, ⟨1⟩]) stateW).res =
      .ok (.results [⟨1, true, 975⟩, ⟨1, true, 975⟩]) ∧
    payoutsFor 1 (invoke envW (.batch_settle [⟨1⟩, ⟨1⟩]) stateW).transfers = 2 :=
  ⟨rfl, rfl⟩

/-- Witness for C1 (amended): a trace that confirms remittance 1, tries
to confirm it again and then batches it commits exactly one payout for
id 1. -/
theorem c1_at_most_one_payout_witness :
    payoutsFor 1 (runTrace
      [(envW, .confirm_payout 1), (envW, .confirm_payout 1),
       (envW, .batch_settle [⟨1⟩])] stateW []).2 ≤ 1 :=
  c1_at_most_one_payout
    [(envW, .confirm_payout 1), (envW, .confirm_payout 1),
     (envW, .batch_settle [⟨1⟩])] stateW 1 (by decide)

end SwiftRemit
